import Mathlib

/-!
Verification development for the `myagley/ota` repository: a shallow
embedding, in Lean 4, of the MQTT v3.1.1 client engine found under
`mqtt/src` and of the Azure IoT Hub twin overlay found under
`azure-iot-mqtt/src`, together with theorems settling the frozen claims
about the natural-language specification of that code.

Conventions of the embedding:

* Rust `u8`/`u16`/`usize` values are modelled as `Nat`; wrapping or
  truncating operations carry an explicit `% 2 ^ w` (or an equivalent
  `/`-`%` decomposition) exactly where the source performs them.
* Byte buffers (`bytes::BytesMut`, `Vec<u8>`) are `List Nat` whose
  elements are bytes; Rust `String` values are modelled by their UTF-8
  byte sequences, also `List Nat`.
* Fallible Rust functions returning `Result<T, E>` become
  `Except E T`; a tokio decoder's `Ok(None)` ("not enough bytes yet")
  becomes `Except E (Option T)` with value `.ok none`.
* Rust `BTreeMap` values are association lists kept sorted on the key by
  insertion; `HashMap` values are association lists where `insert`
  replaces the first binding of the key and `remove` drops the key's
  bindings.  Both agree with the Rust containers on every state whose
  keys are distinct, which is every reachable state.
* `futures::sync::oneshot::Sender<()>` ack notifiers are opaque tokens,
  modelled as `Nat`; completing a notifier is a side effect that is not
  observable in the embedding.
-/

deriving instance DecidableEq for Except

namespace Ota

/-- UTF-8 byte sequence standing for a Rust `String` / `str`. -/
abbrev MString := List Nat

/-! ## `mqtt/src/proto`: protocol data model -/

/-- `proto::QoS` (mqtt/src/proto/packet.rs). -/
inductive QoS where
  | atMostOnce
  | atLeastOnce
  | exactlyOnce
  deriving DecidableEq, Repr

/-- `From<QoS> for u8` (mqtt/src/proto/packet.rs). -/
def QoS.toU8 : QoS → Nat
  | .atMostOnce => 0x00
  | .atLeastOnce => 0x01
  | .exactlyOnce => 0x02

/-- The derived `Ord` on `proto::QoS`: variant order AtMostOnce <
AtLeastOnce < ExactlyOnce, i.e. the order of the `u8` images. -/
def QoS.le (a b : QoS) : Bool := a.toU8 ≤ b.toU8

/-- `proto::SubAckQos` (mqtt/src/proto/packet.rs). -/
inductive SubAckQos where
  | success (qos : QoS)
  | failure
  deriving DecidableEq, Repr

/-- `From<SubAckQos> for u8` (mqtt/src/proto/packet.rs). -/
def SubAckQos.toU8 : SubAckQos → Nat
  | .success qos => qos.toU8
  | .failure => 0x80

/-- `proto::ClientId` (mqtt/src/proto/mod.rs). -/
inductive ClientId where
  | serverGenerated
  | idWithCleanSession (id : MString)
  | idWithExistingSession (id : MString)
  deriving DecidableEq, Repr

/-- True exactly on the `IdWithExistingSession` variant of
`proto::ClientId`. -/
def ClientId.isIdWithExistingSession : ClientId → Bool
  | .idWithExistingSession _ => true
  | _ => false

/-- `proto::ConnectionRefusedReason` (mqtt/src/proto/mod.rs). -/
inductive ConnectionRefusedReason where
  | unacceptableProtocolVersion
  | identifierRejected
  | serverUnavailable
  | badUserNameOrPassword
  | notAuthorized
  | other (code : Nat)
  deriving DecidableEq, Repr

/-- `proto::ConnectReturnCode` (mqtt/src/proto/mod.rs). -/
inductive ConnectReturnCode where
  | accepted
  | refused (reason : ConnectionRefusedReason)
  deriving DecidableEq, Repr

/-- `From<u8> for ConnectReturnCode` (mqtt/src/proto/mod.rs). -/
def ConnectReturnCode.ofU8 (code : Nat) : ConnectReturnCode :=
  if code = 0x00 then .accepted
  else if code = 0x01 then .refused .unacceptableProtocolVersion
  else if code = 0x02 then .refused .identifierRejected
  else if code = 0x03 then .refused .serverUnavailable
  else if code = 0x04 then .refused .badUserNameOrPassword
  else if code = 0x05 then .refused .notAuthorized
  else .refused (.other code)

/-- `From<ConnectReturnCode> for u8` (mqtt/src/proto/mod.rs). -/
def ConnectReturnCode.toU8 : ConnectReturnCode → Nat
  | .accepted => 0x00
  | .refused .unacceptableProtocolVersion => 0x01
  | .refused .identifierRejected => 0x02
  | .refused .serverUnavailable => 0x03
  | .refused .badUserNameOrPassword => 0x04
  | .refused .notAuthorized => 0x05
  | .refused (.other code) => code

/-- `proto::Publication` (mqtt/src/proto/packet.rs).  `keep_alive`
durations decoded from the wire are whole seconds, so `Duration` is
modelled as its seconds count. -/
structure Publication where
  topic_name : MString
  qos : QoS
  retain : Bool
  payload : List Nat
  deriving DecidableEq, Repr

/-- `proto::PacketIdentifierDupQoS` (mqtt/src/proto/packet.rs).  A
packet identifier is a `u16` in `[1, 65535]`, modelled as `Nat`. -/
inductive PacketIdentifierDupQoS where
  | atMostOnce
  | atLeastOnce (packet_identifier : Nat) (dup : Bool)
  | exactlyOnce (packet_identifier : Nat) (dup : Bool)
  deriving DecidableEq, Repr

/-- `proto::SubscribeTo` (mqtt/src/proto/packet.rs). -/
structure SubscribeTo where
  topic_filter : MString
  qos : QoS
  deriving DecidableEq, Repr

/-- `proto::Packet` (mqtt/src/proto/packet.rs).  `keep_alive` is the
duration's seconds count. -/
inductive Packet where
  | connAck (session_present : Bool) (return_code : ConnectReturnCode)
  | connect (username : Option MString) (password : Option MString)
      (will : Option Publication) (client_id : ClientId) (keep_alive : Nat)
  | disconnect
  | pingReq
  | pingResp
  | pubAck (packet_identifier : Nat)
  | pubComp (packet_identifier : Nat)
  | publish (packet_identifier_dup_qos : PacketIdentifierDupQoS)
      (retain : Bool) (topic_name : MString) (payload : List Nat)
  | pubRec (packet_identifier : Nat)
  | pubRel (packet_identifier : Nat)
  | subAck (packet_identifier : Nat) (qos : List SubAckQos)
  | subscribe (packet_identifier : Nat) (subscribe_to : List SubscribeTo)
  | unsubAck (packet_identifier : Nat)
  | unsubscribe (packet_identifier : Nat) (unsubscribe_from : List MString)
  deriving DecidableEq, Repr

/-- `proto::DecodeError` (mqtt/src/proto/mod.rs).  The `Io` and
`StringNotUtf8` payloads are dropped: the embedding has no I/O errors
and records only that UTF-8 validation failed. -/
inductive DecodeError where
  | connectReservedSet
  | incompletePacket
  | publishDupAtMostOnce
  | noTopics
  | remainingLengthTooHigh
  | stringNotUtf8
  | unrecognizedConnAckFlags (flags : Nat)
  | unrecognizedPacket (packet_type : Nat) (flags : Nat) (remaining_length : Nat)
  | unrecognizedProtocolLevel (level : Nat)
  | unrecognizedProtocolName (name : MString)
  | unrecognizedQoS (qos : Nat)
  | zeroPacketIdentifier
  deriving DecidableEq, Repr

/-- `proto::EncodeError` (mqtt/src/proto/mod.rs), without the `Io`
variant (no I/O in the embedding). -/
inductive EncodeError where
  | keepAliveTooHigh (keep_alive : Nat)
  | remainingLengthTooHigh (len : Nat)
  | stringTooLarge (len : Nat)
  | willTooLarge (len : Nat)
  deriving DecidableEq, Repr

/-! ## Remaining-length codec (mqtt/src/proto/mod.rs) -/

/-- Loop body of `<RemainingLengthCodec as Encoder>::encode`
(mqtt/src/proto/mod.rs lines 218-237).  `original` is the value saved
before the loop for the error payload; `dst` is the whole destination
buffer, to which each encoded byte is appended.  The `dst.len() == 4`
comparison is the source's check, performed on the full buffer length
after the push and after the `item == 0` break. -/
def rlEncodeLoop (original : Nat) (item : Nat) (dst : List Nat) :
    Except EncodeError (List Nat) :=
  -- encoded_byte = (item & 0x7F); item >>= 7; if item > 0 { encoded_byte |= 0x80 };
  -- dst.put_u8(encoded_byte); if item == 0 { break }; if dst.len() == 4 { error }
  if item / 128 = 0 then .ok (dst ++ [item % 128])
  else if (dst ++ [item % 128 + 0x80]).length = 4 then
    .error (.remainingLengthTooHigh original)
  else rlEncodeLoop original (item / 128) (dst ++ [item % 128 + 0x80])
termination_by item
decreasing_by
  refine Nat.div_lt_self ?_ (by omega)
  rcases Nat.eq_zero_or_pos item with h0 | h0
  · simp [h0] at *
  · exact h0

/-- `<RemainingLengthCodec as Encoder>::encode` (mqtt/src/proto/mod.rs
lines 209-240): append the continuation-bit encoding of `item` to
`dst`.  The initial `dst.reserve` is a no-op for the model. -/
def remainingLengthEncode (item : Nat) (dst : List Nat) :
    Except EncodeError (List Nat) :=
  rlEncodeLoop item item dst

/-- The canonical continuation-bit byte sequence of a remaining-length
value: low 7 bits first, high bit of each byte set exactly when more
bytes follow. -/
def rlBytes (item : Nat) : List Nat :=
  if item / 128 = 0 then [item % 128] else (item % 128 + 0x80) :: rlBytes (item / 128)
termination_by item
decreasing_by
  refine Nat.div_lt_self ?_ (by omega)
  rcases Nat.eq_zero_or_pos item with h0 | h0
  · simp [h0] at *
  · exact h0

/-- Loop of `<RemainingLengthCodec as Decoder>::decode`
(mqtt/src/proto/mod.rs lines 181-202) over the decoder state
`{result, num_bytes_read}`.  `result |= (byte & 0x7F) << (num_bytes_read * 7)`
is written as an addition: `result` always lies below
`128 ^ num_bytes_read`, so the or-ed bit ranges are disjoint.  The
continuation test `byte & 0x80 == 0` is `b / 128 % 2 = 0` on the byte's
`u8` value. -/
def rlDecodeLoop : Nat → Nat → List Nat → Except DecodeError (Option (Nat × List Nat))
  | _, _, [] => .ok none
  | result, num_bytes_read, b :: rest =>
    if b / 128 % 2 = 0 then
      .ok (some (result + b % 128 * 128 ^ num_bytes_read, rest))
    else if num_bytes_read + 1 = 4 then .error .remainingLengthTooHigh
    else rlDecodeLoop (result + b % 128 * 128 ^ num_bytes_read) (num_bytes_read + 1) rest

/-- `<RemainingLengthCodec as Decoder>::decode` on a fresh decoder
state. -/
def remainingLengthDecode (src : List Nat) :
    Except DecodeError (Option (Nat × List Nat)) :=
  rlDecodeLoop 0 0 src

/-! ## UTF-8 strings (mqtt/src/proto/mod.rs, `Utf8StringCodec`) -/

/-- Whether a byte is a UTF-8 continuation byte (`0x80..=0xBF`). -/
def isUtf8Cont (b : Nat) : Bool := 0x80 ≤ b && b ≤ 0xBF

/-- UTF-8 validity of a byte sequence, as checked by
`std::str::from_utf8`: ASCII, 2-byte sequences `0xC2..=0xDF`, 3-byte
sequences `0xE0..=0xEF` (with the `0xE0` overlong and `0xED` surrogate
restrictions), 4-byte sequences `0xF0..=0xF4` (with the `0xF0` overlong
and `0xF4` range restrictions). -/
def validUtf8 : List Nat → Bool
  | [] => true
  | b :: rest =>
    if b ≤ 0x7F then validUtf8 rest
    else if b < 0xC2 then false
    else if b ≤ 0xDF then
      match rest with
      | c1 :: rest2 => isUtf8Cont c1 && validUtf8 rest2
      | _ => false
    else if b ≤ 0xEF then
      match rest with
      | c1 :: c2 :: rest2 =>
        (if b = 0xE0 then decide (0xA0 ≤ c1) && decide (c1 ≤ 0xBF)
         else if b = 0xED then decide (0x80 ≤ c1) && decide (c1 ≤ 0x9F)
         else isUtf8Cont c1) && isUtf8Cont c2 && validUtf8 rest2
      | _ => false
    else if b ≤ 0xF4 then
      match rest with
      | c1 :: c2 :: c3 :: rest2 =>
        (if b = 0xF0 then decide (0x90 ≤ c1) && decide (c1 ≤ 0xBF)
         else if b = 0xF4 then decide (0x80 ≤ c1) && decide (c1 ≤ 0x8F)
         else isUtf8Cont c1) && isUtf8Cont c2 && isUtf8Cont c3 && validUtf8 rest2
      | _ => false
    else false

/-- `<Utf8StringCodec as Decoder>::decode` on a fresh decoder
(mqtt/src/proto/mod.rs lines 105-130): two-byte big-endian length
prefix, then that many bytes validated as UTF-8.  `.ok none` when the
buffer is too short. -/
def utf8StringDecode (src : List Nat) :
    Except DecodeError (Option (MString × List Nat)) :=
  match src with
  | b0 :: b1 :: rest =>
    let len := b0 * 256 + b1
    if rest.length < len then .ok none
    else if validUtf8 (rest.take len) then .ok (some (rest.take len, rest.drop len))
    else .error .stringNotUtf8
  | _ => .ok none

/-- `<Utf8StringCodec as Encoder>::encode` (mqtt/src/proto/mod.rs lines
137-149): error if the byte length exceeds `u16::MAX`, else append the
big-endian length prefix and the bytes. -/
def utf8StringEncode (item : MString) (dst : List Nat) :
    Except EncodeError (List Nat) :=
  if item.length ≤ 65535 then
    .ok (dst ++ [item.length / 256, item.length % 256] ++ item)
  else .error (.stringTooLarge item.length)

/-! ## Packet codec (mqtt/src/proto/packet.rs) -/

/-- `BufMutExt::try_get_u8` (mqtt/src/proto/mod.rs lines 454-462),
specialized to the body-parsing context where its error is propagated. -/
def tryGetU8 (src : List Nat) : Except DecodeError (Nat × List Nat) :=
  match src with
  | [] => .error .incompletePacket
  | b :: rest => .ok (b, rest)

/-- `BufMutExt::try_get_u16_be` (mqtt/src/proto/mod.rs lines 464-473). -/
def tryGetU16be (src : List Nat) : Except DecodeError (Nat × List Nat) :=
  match src with
  | b0 :: b1 :: rest => .ok (b0 * 256 + b1, rest)
  | _ => .error .incompletePacket

/-- `Utf8StringCodec::default().decode(&mut src)?.ok_or(DecodeError::IncompletePacket)?`,
the idiom used throughout `PacketCodec::decode`. -/
def readString (src : List Nat) : Except DecodeError (MString × List Nat) :=
  match utf8StringDecode src with
  | .ok none => .error .incompletePacket
  | .ok (some r) => .ok r
  | .error e => .error e

/-- Read a `u16` and reject 0 via `PacketIdentifier::new`
(mqtt/src/proto/packet.rs, the repeated packet-identifier idiom). -/
def readPacketIdentifier (src : List Nat) : Except DecodeError (Nat × List Nat) := do
  let (v, rest) ← tryGetU16be src
  if v = 0 then .error .zeroPacketIdentifier else .ok (v, rest)

/-- The protocol name "MQTT" as UTF-8 bytes. -/
def mqttBytes : MString := [0x4D, 0x51, 0x54, 0x54]

/-- The SUBACK payload loop (`for _ in 2..remaining_length`,
mqtt/src/proto/packet.rs lines 471-480): read `count` return-code
bytes. -/
def readSubAckQos (count : Nat) (src : List Nat) :
    Except DecodeError (List SubAckQos) :=
  match count with
  | 0 => .ok []
  | c + 1 => do
    let (b, rest) ← tryGetU8 src
    let q ←
      if b = 0x00 then .ok (SubAckQos.success .atMostOnce)
      else if b = 0x01 then .ok (SubAckQos.success .atLeastOnce)
      else if b = 0x02 then .ok (SubAckQos.success .exactlyOnce)
      else if b = 0x80 then .ok SubAckQos.failure
      else .error (.unrecognizedQoS b)
    let qs ← readSubAckQos c rest
    .ok (q :: qs)

/-- The SUBSCRIBE payload loop (`while !src.is_empty()`,
mqtt/src/proto/packet.rs lines 497-508): alternately a length-prefixed
UTF-8 topic filter (the string parse of `Utf8StringCodec` is inlined so
the recursion is visibly decreasing) and a QoS byte. -/
def readSubscribeTo : List Nat → Except DecodeError (List SubscribeTo)
  | [] => .ok []
  | [_] => .error .incompletePacket
  | b0 :: b1 :: rest =>
    let len := b0 * 256 + b1
    if rest.length < len then .error .incompletePacket
    else if validUtf8 (rest.take len) then
      match h2 : rest.drop len with
      | [] => .error .incompletePacket
      | q :: rest2 => do
        let qos ←
          if q = 0x00 then .ok QoS.atMostOnce
          else if q = 0x01 then .ok QoS.atLeastOnce
          else if q = 0x02 then .ok QoS.exactlyOnce
          else .error (.unrecognizedQoS q)
        let tail ← readSubscribeTo rest2
        .ok (⟨rest.take len, qos⟩ :: tail)
    else .error .stringNotUtf8
termination_by src => src.length
decreasing_by
  have hlen := congrArg List.length h2
  simp [List.length_drop] at hlen
  simp
  omega

/-- The UNSUBSCRIBE payload loop (mqtt/src/proto/packet.rs lines
539-545): a sequence of length-prefixed UTF-8 topic filters. -/
def readUnsubscribeFrom : List Nat → Except DecodeError (List MString)
  | [] => .ok []
  | [_] => .error .incompletePacket
  | b0 :: b1 :: rest =>
    let len := b0 * 256 + b1
    if h : rest.length < len then .error .incompletePacket
    else if validUtf8 (rest.take len) then do
      let tail ← readUnsubscribeFrom (rest.drop len)
      .ok (rest.take len :: tail)
    else .error .stringNotUtf8
termination_by src => src.length
decreasing_by
  simp
  have := List.length_drop len rest
  omega

/-- The body-parsing `match` of `PacketCodec::decode`
(mqtt/src/proto/packet.rs lines 262-562), written as the equivalent
chain of guards in the source's arm order.  `first_byte` is the fixed
header's first byte (a `u8`), `src` the exactly-`remaining_length`-byte
body, so the matched `remaining_length` is `src.length`.
The guards mirror `(first_byte & 0xF0, first_byte & 0x0F,
src.len())`. -/
def parsePacketBody (first_byte : Nat) (src : List Nat) :
    Except DecodeError Packet :=
  let packet_type := first_byte / 16 * 16
  let flags := first_byte % 16
  if packet_type = 0x20 ∧ flags = 0 ∧ src.length = 2 then do
    -- CONNACK
    let (flags2, src) ← tryGetU8 src
    let session_present ←
      if flags2 = 0x00 then .ok false
      else if flags2 = 0x01 then .ok true
      else .error (.unrecognizedConnAckFlags flags2)
    let (code, _) ← tryGetU8 src
    .ok (.connAck session_present (ConnectReturnCode.ofU8 code))
  else if packet_type = 0x10 ∧ flags = 0 then do
    -- CONNECT
    let (protocol_name, src) ← readString src
    if protocol_name ≠ mqttBytes then
      .error (.unrecognizedProtocolName protocol_name)
    else do
    let (protocol_level, src) ← tryGetU8 src
    if protocol_level ≠ 0x04 then .error (.unrecognizedProtocolLevel protocol_level)
    else do
    let (connect_flags, src) ← tryGetU8 src
    -- connect_flags & 0x01
    if connect_flags % 2 ≠ 0 then .error .connectReservedSet
    else do
    let (keep_alive, src) ← tryGetU16be src
    let (client_id_str, src) ← readString src
    let client_id :=
      if client_id_str = [] then ClientId.serverGenerated
      -- connect_flags & 0x02
      else if connect_flags / 2 % 2 = 0 then ClientId.idWithExistingSession client_id_str
      else ClientId.idWithCleanSession client_id_str
    -- connect_flags & 0x04
    let (will, src) ←
      if connect_flags / 4 % 2 = 0 then .ok ((none : Option Publication), src)
      else do
        let (topic_name, src) ← readString src
        -- connect_flags & 0x18, error payload is `qos >> 3`
        let qos ←
          match connect_flags / 8 % 4 with
          | 0 => .ok QoS.atMostOnce
          | 1 => .ok QoS.atLeastOnce
          | 2 => .ok QoS.exactlyOnce
          | q => .error (.unrecognizedQoS q)
        -- connect_flags & 0x20
        let retain := connect_flags / 32 % 2 ≠ 0
        let (payload_len, src) ← tryGetU16be src
        if src.length < payload_len then .error .incompletePacket
        else
          .ok (some (Publication.mk topic_name qos retain (src.take payload_len)),
            src.drop payload_len)
    -- connect_flags & 0x80
    let (username, src) ←
      if connect_flags / 128 % 2 = 0 then .ok ((none : Option MString), src)
      else do
        let (u, src) ← readString src
        .ok (some u, src)
    -- connect_flags & 0x40
    let (password, _) ←
      if connect_flags / 64 % 2 = 0 then .ok ((none : Option MString), src)
      else do
        let (p, src) ← readString src
        .ok (some p, src)
    .ok (.connect username password will client_id keep_alive)
  else if packet_type = 0xE0 ∧ flags = 0 ∧ src.length = 0 then .ok .disconnect
  else if packet_type = 0xC0 ∧ flags = 0 ∧ src.length = 0 then .ok .pingReq
  else if packet_type = 0xD0 ∧ flags = 0 ∧ src.length = 0 then .ok .pingResp
  else if packet_type = 0x40 ∧ flags = 0 ∧ src.length = 2 then do
    let (pid, _) ← readPacketIdentifier src
    .ok (.pubAck pid)
  else if packet_type = 0x70 ∧ flags = 0 ∧ src.length = 2 then do
    let (pid, _) ← readPacketIdentifier src
    .ok (.pubComp pid)
  else if packet_type = 0x30 then do
    -- PUBLISH; flags & 0x08 is DUP, flags & 0x01 is RETAIN
    let dup := flags / 8 % 2 ≠ 0
    let retain := flags % 2 ≠ 0
    let (topic_name, src) ← readString src
    -- (flags & 0x06) >> 1
    let (packet_identifier_dup_qos, src) ←
      match flags / 2 % 4 with
      | 0 =>
        if dup then .error .publishDupAtMostOnce
        else .ok (PacketIdentifierDupQoS.atMostOnce, src)
      | 1 => do
        let (pid, src) ← readPacketIdentifier src
        .ok (PacketIdentifierDupQoS.atLeastOnce pid dup, src)
      | 2 => do
        let (pid, src) ← readPacketIdentifier src
        .ok (PacketIdentifierDupQoS.exactlyOnce pid dup, src)
      | q => .error (.unrecognizedQoS q)
    .ok (.publish packet_identifier_dup_qos retain topic_name src)
  else if packet_type = 0x50 ∧ flags = 0 ∧ src.length = 2 then do
    let (pid, _) ← readPacketIdentifier src
    .ok (.pubRec pid)
  else if packet_type = 0x60 ∧ flags = 2 ∧ src.length = 2 then do
    let (pid, _) ← readPacketIdentifier src
    .ok (.pubRel pid)
  else if packet_type = 0x90 ∧ flags = 0 then do
    let remaining_length := src.length
    let (pid, src) ← readPacketIdentifier src
    let qos ← readSubAckQos (remaining_length - 2) src
    .ok (.subAck pid qos)
  else if packet_type = 0x80 ∧ flags = 2 then do
    let (pid, src) ← readPacketIdentifier src
    let subscribe_to ← readSubscribeTo src
    if subscribe_to = [] then .error .noTopics
    else .ok (.subscribe pid subscribe_to)
  else if packet_type = 0xB0 ∧ flags = 0 ∧ src.length = 2 then do
    let (pid, _) ← readPacketIdentifier src
    .ok (.unsubAck pid)
  else if packet_type = 0xA0 ∧ flags = 2 then do
    let (pid, src) ← readPacketIdentifier src
    let unsubscribe_from ← readUnsubscribeFrom src
    if unsubscribe_from = [] then .error .noTopics
    else .ok (.unsubscribe pid unsubscribe_from)
  else .error (.unrecognizedPacket packet_type flags src.length)

/-- `<PacketCodec as Decoder>::decode` on a fresh decoder
(mqtt/src/proto/packet.rs lines 219-563): first byte, remaining length,
wait for the full body, then parse the body.  Returns the decoded
packet and the unconsumed remainder of the buffer. -/
def PacketCodec.decode (src : List Nat) :
    Except DecodeError (Option (Packet × List Nat)) :=
  match src with
  | [] => .ok none
  | first_byte :: rest =>
    match remainingLengthDecode rest with
    | .error e => .error e
    | .ok none => .ok none
    | .ok (some (remaining_length, rest)) =>
      if rest.length < remaining_length then .ok none
      else
        match parsePacketBody first_byte (rest.take remaining_length) with
        | .error e => .error e
        | .ok p => .ok (some (p, rest.drop remaining_length))

/-- `put_u16_be` (as `BufMutExt::append_u16_be` /
`append_packet_identifier`): two big-endian bytes of a `u16`. -/
def appendU16be (dst : List Nat) (n : Nat) : List Nat :=
  dst ++ [n / 256 % 256, n % 256]

/-- `encode_packet` (mqtt/src/proto/packet.rs lines 785-803): build the
body into a fresh buffer, append the packet-type byte to `dst`, encode
the body's length as a remaining length into `dst`, then append the
body. -/
def encodePacket (dst : List Nat) (packet_type : Nat)
    (f : List Nat → Except EncodeError (List Nat)) :
    Except EncodeError (List Nat) := do
  let remaining_dst ← f []
  let dst2 ← remainingLengthEncode remaining_dst.length (dst ++ [packet_type])
  .ok (dst2 ++ remaining_dst)

/-- `<PacketCodec as Encoder>::encode` (mqtt/src/proto/packet.rs lines
570-783).  The `|=` compositions of disjoint flag bits are written as
sums. -/
def PacketCodec.encode (item : Packet) (dst : List Nat) :
    Except EncodeError (List Nat) :=
  match item with
  | .connAck session_present return_code =>
    encodePacket dst 0x20 fun d =>
      .ok (d ++ [if session_present then 0x01 else 0x00] ++ [return_code.toU8])
  | .connect username password will client_id keep_alive =>
    encodePacket dst 0x10 fun d => do
      let d ← utf8StringEncode mqttBytes d
      let d := d ++ [0x04]
      let connect_flags :=
        (if username.isSome then 0x80 else 0) +
        (if password.isSome then 0x40 else 0) +
        (match will with
         | some w =>
           (if w.retain then 0x20 else 0) +
           (match w.qos with
            | .atMostOnce => 0x00
            | .atLeastOnce => 0x08
            | .exactlyOnce => 0x10) + 0x04
         | none => 0) +
        (match client_id with
         | .serverGenerated | .idWithCleanSession _ => 0x02
         | .idWithExistingSession _ => 0)
      let d := d ++ [connect_flags]
      let d ←
        if keep_alive ≤ 65535 then .ok (appendU16be d keep_alive)
        else .error (.keepAliveTooHigh keep_alive)
      let d ←
        match client_id with
        | .serverGenerated => utf8StringEncode [] d
        | .idWithCleanSession id | .idWithExistingSession id => utf8StringEncode id d
      let d ←
        match will with
        | none => .ok d
        | some w => do
          let d ← utf8StringEncode w.topic_name d
          if w.payload.length ≤ 65535 then
            .ok (appendU16be d w.payload.length ++ w.payload)
          else .error (.willTooLarge w.payload.length)
      let d ← match username with | none => .ok d | some u => utf8StringEncode u d
      let d ← match password with | none => .ok d | some p => utf8StringEncode p d
      .ok d
  | .disconnect => encodePacket dst 0xE0 fun d => .ok d
  | .pingReq => encodePacket dst 0xC0 fun d => .ok d
  | .pingResp => encodePacket dst 0xD0 fun d => .ok d
  | .pubAck packet_identifier =>
    encodePacket dst 0x40 fun d => .ok (appendU16be d packet_identifier)
  | .pubComp packet_identifier =>
    encodePacket dst 0x70 fun d => .ok (appendU16be d packet_identifier)
  | .publish packet_identifier_dup_qos retain topic_name payload =>
    let packet_type := 0x30 +
      (match packet_identifier_dup_qos with
       | .atMostOnce => 0x00
       | .atLeastOnce _ true => 0x0A
       | .atLeastOnce _ false => 0x02
       | .exactlyOnce _ true => 0x0C
       | .exactlyOnce _ false => 0x04) +
      (if retain then 0x01 else 0)
    encodePacket dst packet_type fun d => do
      let d ← utf8StringEncode topic_name d
      let d :=
        match packet_identifier_dup_qos with
        | .atMostOnce => d
        | .atLeastOnce pid _ | .exactlyOnce pid _ => appendU16be d pid
      .ok (d ++ payload)
  | .pubRec packet_identifier =>
    encodePacket dst 0x50 fun d => .ok (appendU16be d packet_identifier)
  | .pubRel packet_identifier =>
    encodePacket dst (0x60 + 0x02) fun d => .ok (appendU16be d packet_identifier)
  | .subAck packet_identifier qos =>
    encodePacket dst 0x90 fun d =>
      .ok (appendU16be d packet_identifier ++ qos.map SubAckQos.toU8)
  | .subscribe packet_identifier subscribe_to =>
    encodePacket dst (0x80 + 0x02) fun d => do
      let d := appendU16be d packet_identifier
      let d ← subscribe_to.foldlM
        (fun d st => do
          let d ← utf8StringEncode st.topic_filter d
          .ok (d ++ [st.qos.toU8]))
        d
      .ok d
  | .unsubAck packet_identifier =>
    encodePacket dst 0xB0 fun d => .ok (appendU16be d packet_identifier)
  | .unsubscribe packet_identifier unsubscribe_from =>
    encodePacket dst (0xA0 + 0x02) fun d => do
      let d := appendU16be d packet_identifier
      let d ← unsubscribe_from.foldlM (fun d u => utf8StringEncode u d) d
      .ok d

/-! ## Packet identifier allocation (mqtt/src/client/mod.rs) -/

/-- `PacketIdentifier + u16` (mqtt/src/proto/mod.rs lines 274-283):
wrapping `u16` addition that skips 0 by mapping it to 1. -/
def pidAdd (pid other : Nat) : Nat :=
  let v := (pid + other) % 65536
  if v = 0 then 1 else v

/-- `UnexpectedSubUnsubAckReason` (mqtt/src/client/mod.rs lines 688-694). -/
inductive UnexpectedSubUnsubAckReason where
  | didNotExpect
  | expected (packet_identifier : Nat)
  | expectedSubAck (packet_identifier : Nat)
  | expectedUnsubAck (packet_identifier : Nat)
  deriving DecidableEq, Repr

/-- Client `Error` (mqtt/src/client/mod.rs lines 673-686).  Payload
types follow the source; `DecodePacket`, `EncodePacket` carry the codec
errors, `PingTimer` drops the tokio timer error. -/
inductive ClientError where
  | decodePacket (err : DecodeError)
  | duplicateExactlyOncePublishPacketNotMarkedDuplicate (packet_identifier : Nat)
  | encodePacket (err : EncodeError)
  | packetIdentifiersExhausted
  | pingTimer
  | serverClosedConnection
  | subAckDoesNotContainEnoughQoS (packet_identifier expected actual : Nat)
  | subscriptionDowngraded (topic_name : MString) (expected actual : QoS)
  | subscriptionRejectedByServer
  | unexpectedSubAck (packet_identifier : Nat) (reason : UnexpectedSubUnsubAckReason)
  | unexpectedUnsubAck (packet_identifier : Nat) (reason : UnexpectedSubUnsubAckReason)
  deriving DecidableEq, Repr

/-- `PacketIdentifiers` (mqtt/src/client/mod.rs lines 609-671): a
65536-bit bitset plus a cursor.  The source stores the bitset as
`[usize; 1024]` and `entry` maps an identifier to `(block, mask) =
(pid / 64, 1 << pid % 64)`; bit `pid % 64` of block `pid / 64` of that
array is bit `pid` of a single natural-number bitset, which is how
`in_use` is modelled here. -/
structure PacketIdentifiers where
  inUse : Nat
  previous : Nat
  deriving DecidableEq, Repr

/-- `Default for PacketIdentifiers` (mqtt/src/client/mod.rs lines
664-671): empty bitset, cursor at `PacketIdentifier::max_value()`. -/
def PacketIdentifiers.default : PacketIdentifiers := ⟨0, 65535⟩

/-- `PacketIdentifiers::reserve` (mqtt/src/client/mod.rs lines
625-639): step the cursor once (`current = previous + 1`); if that one
identifier's bit is set, fail with `PacketIdentifiersExhausted`,
otherwise set its bit, move the cursor and return it.
`*block & mask != 0` is `testBit`, `*block |= mask` is the bitwise or
with `2 ^ current`. -/
def PacketIdentifiers.reserve (s : PacketIdentifiers) :
    Except ClientError (Nat × PacketIdentifiers) :=
  let current := pidAdd s.previous 1
  if s.inUse.testBit current then .error .packetIdentifiersExhausted
  else .ok (current, ⟨s.inUse ||| 2 ^ current, current⟩)

/-- `PacketIdentifiers::discard` (mqtt/src/client/mod.rs lines
641-644): clear the identifier's bit (`*block &= !mask`). -/
def PacketIdentifiers.discard (s : PacketIdentifiers) (packet_identifier : Nat) :
    PacketIdentifiers :=
  { s with
    inUse :=
      if s.inUse.testBit packet_identifier then s.inUse - 2 ^ packet_identifier
      else s.inUse }

/-! ## Association-list maps -/

/-- A `BTreeMap<PacketIdentifier, α>` as an association list sorted by
key. -/
abbrev PidMap (α : Type) := List (Nat × α)

/-- `BTreeMap` lookup: first binding of the key. -/
def pidMapLookup (k : Nat) : PidMap α → Option α
  | [] => none
  | (k2, v) :: rest => if k = k2 then some v else pidMapLookup k rest

/-- `BTreeMap::insert`: ordered insert replacing an existing binding of
the same key. -/
def pidMapInsert (k : Nat) (v : α) : PidMap α → PidMap α
  | [] => [(k, v)]
  | (k2, v2) :: rest =>
    if k < k2 then (k, v) :: (k2, v2) :: rest
    else if k = k2 then (k, v) :: rest
    else (k2, v2) :: pidMapInsert k v rest

/-- `BTreeMap::remove`: drop the key's bindings. -/
def pidMapRemove (k : Nat) (m : PidMap α) : PidMap α :=
  m.filter fun kv => decide (kv.1 ≠ k)

/-- `BTreeMap::values`. -/
def pidMapValues (m : PidMap α) : List α := m.map Prod.snd

/-- `BTreeMap::keys`. -/
def pidMapKeys (m : PidMap α) : List Nat := m.map Prod.fst

/-- A `HashMap<String, QoS>` as an association list. -/
abbrev SubMap := List (MString × QoS)

/-- `HashMap` lookup. -/
def subMapLookup (k : MString) : SubMap → Option QoS
  | [] => none
  | (k2, v) :: rest => if k = k2 then some v else subMapLookup k rest

/-- `HashMap::insert`: replace the first binding of the key, else
append. -/
def subMapInsert (k : MString) (v : QoS) : SubMap → SubMap
  | [] => [(k, v)]
  | (k2, v2) :: rest =>
    if k = k2 then (k, v) :: rest else (k2, v2) :: subMapInsert k v rest

/-- `HashMap::remove`: drop the key's bindings. -/
def subMapRemove (k : MString) (m : SubMap) : SubMap :=
  m.filter fun kv => decide (kv.1 ≠ k)

/-- `HashMap::contains_key`. -/
def subMapContainsKey (k : MString) (m : SubMap) : Bool :=
  (subMapLookup k m).isSome

/-! ## Publish machine (mqtt/src/client/publish.rs) -/

/-- `ReceivedPublication` (mqtt/src/client/mod.rs lines 447-453). -/
structure ReceivedPublication where
  topic_name : MString
  dup : Bool
  qos : QoS
  retain : Bool
  payload : List Nat
  deriving DecidableEq, Repr

/-- `publish::PublishRequest` (mqtt/src/client/publish.rs lines
386-391); the oneshot ack sender is an opaque token. -/
structure PublishRequest where
  publication : Publication
  ack_sender : Nat
  deriving DecidableEq, Repr

/-- `publish::State` (mqtt/src/client/publish.rs lines 3-26).  The
mpsc channel feeding `publish_requests_waiting_to_be_sent` is absorbed
into the queue: the source's channel-drain loop only moves requests
into this `VecDeque` before they are processed. -/
structure PublishState where
  publishRequestsWaitingToBeSent : List PublishRequest
  waitingToBeAcked : PidMap (Nat × Packet)
  waitingToBeReleased : PidMap ReceivedPublication
  waitingToBeCompleted : PidMap (Nat × Packet)
  deriving DecidableEq, Repr

/-- The inbound-packet `match` of `publish::State::poll`
(mqtt/src/client/publish.rs lines 43-155).  Returns the unconsumed
packet (for the `other` arm), the mutated state and allocator, and
either the early error or the queued reply packets and surfaced
publication.  Oneshot ack completions are unobservable side effects
and are not returned. -/
def publishHandleInbound (packet : Option Packet) (s : PublishState)
    (pids : PacketIdentifiers) :
    Option Packet × PublishState × PacketIdentifiers ×
      Except ClientError (List Packet × Option ReceivedPublication) :=
  match packet with
  | some (.pubAck packet_identifier) =>
    (match pidMapLookup packet_identifier s.waitingToBeAcked with
     | some _ =>
       (none, { s with waitingToBeAcked := pidMapRemove packet_identifier s.waitingToBeAcked },
        pids.discard packet_identifier, .ok ([], none))
     | none => (none, s, pids, .ok ([], none)))
  | some (.pubComp packet_identifier) =>
    (match pidMapLookup packet_identifier s.waitingToBeCompleted with
     | some _ =>
       (none,
        { s with waitingToBeCompleted := pidMapRemove packet_identifier s.waitingToBeCompleted },
        pids.discard packet_identifier, .ok ([], none))
     | none => (none, s, pids, .ok ([], none)))
  | some (.publish packet_identifier_dup_qos retain topic_name payload) =>
    (match packet_identifier_dup_qos with
     | .atMostOnce =>
       (none, s, pids, .ok ([], some ⟨topic_name, false, .atMostOnce, retain, payload⟩))
     | .atLeastOnce packet_identifier dup =>
       (none, s, pids,
        .ok ([.pubAck packet_identifier],
          some ⟨topic_name, dup, .atLeastOnce, retain, payload⟩))
     | .exactlyOnce packet_identifier dup =>
       match pidMapLookup packet_identifier s.waitingToBeReleased with
       | some _ =>
         -- already received earlier; a duplicate must carry DUP
         if !dup then
           (none, s, pids,
            .error (.duplicateExactlyOncePublishPacketNotMarkedDuplicate packet_identifier))
         else (none, s, pids, .ok ([.pubRec packet_identifier], none))
       | none =>
         -- held back until the PUBREL arrives
         (none,
          { s with
            waitingToBeReleased :=
              pidMapInsert packet_identifier
                ⟨topic_name, dup, .exactlyOnce, retain, payload⟩ s.waitingToBeReleased },
          pids, .ok ([.pubRec packet_identifier], none)))
  | some (.pubRec packet_identifier) =>
    (match pidMapLookup packet_identifier s.waitingToBeAcked with
     | some entry =>
       (none,
        { s with
          waitingToBeAcked := pidMapRemove packet_identifier s.waitingToBeAcked,
          waitingToBeCompleted := pidMapInsert packet_identifier entry s.waitingToBeCompleted },
        pids, .ok ([.pubRel packet_identifier], none))
     | none => (none, s, pids, .ok ([.pubRel packet_identifier], none)))
  | some (.pubRel packet_identifier) =>
    (match pidMapLookup packet_identifier s.waitingToBeReleased with
     | some publication =>
       (none,
        { s with waitingToBeReleased := pidMapRemove packet_identifier s.waitingToBeReleased },
        pids.discard packet_identifier, .ok ([.pubComp packet_identifier], some publication))
     | none => (none, s, pids, .ok ([.pubComp packet_identifier], none)))
  | other => (other, s, pids, .ok ([], none))

/-- The request-drain loop of `publish::State::poll`
(mqtt/src/client/publish.rs lines 166-274).  Produces the outbound
PUBLISH packets in request order; on identifier exhaustion the failing
request is pushed back to the head of the queue and the error is
reported, keeping the state mutations of the already-drained
requests. -/
def publishProcessRequests (reqs : List PublishRequest)
    (waitingToBeAcked : PidMap (Nat × Packet)) (pids : PacketIdentifiers) :
    List Packet × List PublishRequest × PidMap (Nat × Packet) × PacketIdentifiers ×
      Option ClientError :=
  match reqs with
  | [] => ([], [], waitingToBeAcked, pids, none)
  | req :: rest =>
    match req.publication.qos with
    | .atMostOnce =>
      let r := publishProcessRequests rest waitingToBeAcked pids
      (.publish .atMostOnce req.publication.retain req.publication.topic_name
          req.publication.payload :: r.1,
       r.2.1, r.2.2.1, r.2.2.2.1, r.2.2.2.2)
    | .atLeastOnce =>
      (match pids.reserve with
       | .error e => ([], req :: rest, waitingToBeAcked, pids, some e)
       | .ok (packet_identifier, pids2) =>
         let acked2 := pidMapInsert packet_identifier
           (req.ack_sender,
            Packet.publish (.atLeastOnce packet_identifier true) req.publication.retain
              req.publication.topic_name req.publication.payload)
           waitingToBeAcked
         let r := publishProcessRequests rest acked2 pids2
         (.publish (.atLeastOnce packet_identifier false) req.publication.retain
             req.publication.topic_name req.publication.payload :: r.1,
          r.2.1, r.2.2.1, r.2.2.2.1, r.2.2.2.2))
    | .exactlyOnce =>
      (match pids.reserve with
       | .error e => ([], req :: rest, waitingToBeAcked, pids, some e)
       | .ok (packet_identifier, pids2) =>
         let acked2 := pidMapInsert packet_identifier
           (req.ack_sender,
            Packet.publish (.exactlyOnce packet_identifier true) req.publication.retain
              req.publication.topic_name req.publication.payload)
           waitingToBeAcked
         let r := publishProcessRequests rest acked2 pids2
         (.publish (.exactlyOnce packet_identifier false) req.publication.retain
             req.publication.topic_name req.publication.payload :: r.1,
          r.2.1, r.2.2.1, r.2.2.2.1, r.2.2.2.2))

/-- `publish::State::poll` (mqtt/src/client/publish.rs lines 29-277):
inbound-packet handling followed by the request drain.  On an error
return the accumulated packet list and surfaced publication are
dropped, as the source's `return Err(..)` drops its local
`packets_waiting_to_be_sent` and `publication_received`. -/
def PublishState.poll (packet : Option Packet) (s : PublishState)
    (pids : PacketIdentifiers) :
    Option Packet × PublishState × PacketIdentifiers ×
      Except ClientError (List Packet × Option ReceivedPublication) :=
  match publishHandleInbound packet s pids with
  | (packetOut, s1, pids1, .error e) => (packetOut, s1, pids1, .error e)
  | (packetOut, s1, pids1, .ok (packets1, publication)) =>
    let r := publishProcessRequests s1.publishRequestsWaitingToBeSent
      s1.waitingToBeAcked pids1
    let s2 := { s1 with
      publishRequestsWaitingToBeSent := r.2.1,
      waitingToBeAcked := r.2.2.1 }
    match r.2.2.2.2 with
    | some e => (packetOut, s2, r.2.2.2.1, .error e)
    | none => (packetOut, s2, r.2.2.2.1, .ok (packets1 ++ r.1, publication))

/-- `publish::State::new_connection` (mqtt/src/client/publish.rs lines
279-310): on a session reset, move `waiting_to_be_completed` back into
`waiting_to_be_acked` (`BTreeMap::append`) and clear
`waiting_to_be_released`, discarding its identifiers; then replay every
stored `waiting_to_be_acked` packet, a PUBREC per
`waiting_to_be_released` key, and every stored
`waiting_to_be_completed` packet, in that order. -/
def PublishState.newConnection (reset_session : Bool) (s : PublishState)
    (pids : PacketIdentifiers) :
    List Packet × PublishState × PacketIdentifiers :=
  let sp :=
    if reset_session then
      ({ s with
         waitingToBeAcked :=
           s.waitingToBeCompleted.foldl (fun m kv => pidMapInsert kv.1 kv.2 m)
             s.waitingToBeAcked,
         waitingToBeCompleted := [],
         waitingToBeReleased := [] },
       s.waitingToBeReleased.foldl (fun p kv => p.discard kv.1) pids)
    else (s, pids)
  ((pidMapValues sp.1.waitingToBeAcked).map Prod.snd
     ++ (pidMapKeys sp.1.waitingToBeReleased).map Packet.pubRec
     ++ (pidMapValues sp.1.waitingToBeCompleted).map Prod.snd,
   sp.1, sp.2)

/-! ## Connect machine (mqtt/src/client/connect.rs) -/

/-- `connect::FramedState` (mqtt/src/client/connect.rs lines 28-37). -/
inductive FramedState where
  | beginSendingConnect
  | endSendingConnect
  | waitingForConnAck
  | connected (new_connection : Bool) (reset_session : Bool)
  deriving DecidableEq, Repr

/-- The `ConnAck { return_code: Accepted, session_present }` arm of
`Connect::poll` in state `WaitingForConnAck`
(mqtt/src/client/connect.rs lines 174-200): compute `reset_session`
and the rewritten client id.  `ServerGenerated` forces a session reset
and is kept as-is; `IdWithCleanSession(id)` forces a reset and becomes
`IdWithExistingSession(id)`; `IdWithExistingSession(id)` is kept and
resets exactly when the server did not report a present session. -/
def connAckAccepted (client_id : ClientId) (session_present : Bool) :
    Bool × ClientId :=
  match client_id with
  | .serverGenerated => (true, .serverGenerated)
  | .idWithCleanSession id => (true, .idWithExistingSession id)
  | .idWithExistingSession id => (!session_present, .idWithExistingSession id)

/-- The full state effect of the accepted-CONNACK arm: the rewritten
client id and the `Connected { new_connection: true, reset_session }`
framed state (mqtt/src/client/connect.rs lines 196-199). -/
def connectHandleConnAckAccepted (client_id : ClientId) (session_present : Bool) :
    ClientId × FramedState :=
  ((connAckAccepted client_id session_present).2,
   .connected true (connAckAccepted client_id session_present).1)

/-! ## Subscriptions machine (mqtt/src/client/subscriptions.rs) -/

/-- `SubscriptionUpdate` (mqtt/src/client/subscriptions.rs lines
434-438). -/
inductive SubscriptionUpdate where
  | subscribe (subscribe_to : SubscribeTo)
  | unsubscribe (unsubscribe_from : MString)
  deriving DecidableEq, Repr

/-- `BatchedSubscriptionUpdate` (mqtt/src/client/subscriptions.rs
lines 440-444). -/
inductive BatchedSubscriptionUpdate where
  | subscribe (subscribe_to : List SubscribeTo)
  | unsubscribe (unsubscribe_from : List MString)
  deriving DecidableEq, Repr

/-- `subscriptions::State` (mqtt/src/client/subscriptions.rs lines
3-13).  As for the publish machine, the mpsc channel feeding
`subscription_updates_waiting_to_be_sent` is absorbed into the
queue. -/
structure SubsState where
  subscriptions : SubMap
  updatesToSend : List SubscriptionUpdate
  updatesToAck : List (Nat × BatchedSubscriptionUpdate)
  deriving DecidableEq, Repr

/-- Byte-lexicographic order on UTF-8 strings: the `Ord` of Rust
`String` used by the `sort_by`/`sort` calls of the subscriptions
machine. -/
def lexLe : MString → MString → Bool
  | [], _ => true
  | _ :: _, [] => false
  | a :: as, b :: bs => if a < b then true else if b < a then false else lexLe as bs

/-- Insert into a sorted list (helper of the stable sort below). -/
def insertOrdered (le : α → α → Bool) (x : α) : List α → List α
  | [] => [x]
  | y :: ys => if le x y then x :: y :: ys else y :: insertOrdered le x ys

/-- Stable insertion sort modelling `Vec::sort_by` / `Vec::sort`. -/
def sortByBool (le : α → α → Bool) (l : List α) : List α :=
  l.foldr (insertOrdered le) []

/-- The SUBACK per-entry loop of `subscriptions::State::poll`
(mqtt/src/client/subscriptions.rs lines 65-110), folded over the
zipped batch and return codes: returns the updated acknowledged set,
the emitted `SubscriptionUpdate::Subscribe` events, and the pending
error.  `err` is only set by the first offending entry
(`if err.is_none()`), so an earlier entry's error takes precedence
over any later one. -/
def subAckLoop : List SubscribeTo → List SubAckQos → SubMap →
    SubMap × List SubscriptionUpdate × Option ClientError
  | [], _, subs => (subs, [], none)
  | _ :: _, [], subs => (subs, [], none)
  | st :: sts, q :: qs, subs =>
    match q with
    | .success actual_qos =>
      if QoS.le st.qos actual_qos then
        let r := subAckLoop sts qs (subMapInsert st.topic_filter actual_qos subs)
        (r.1, .subscribe ⟨st.topic_filter, actual_qos⟩ :: r.2.1, r.2.2)
      else
        let r := subAckLoop sts qs (subMapInsert st.topic_filter st.qos subs)
        (r.1, r.2.1, some (.subscriptionDowngraded st.topic_filter st.qos actual_qos))
    | .failure =>
      let r := subAckLoop sts qs (subMapInsert st.topic_filter st.qos subs)
      (r.1, r.2.1, some .subscriptionRejectedByServer)

/-- One subscription update applied to the target set
(mqtt/src/client/subscriptions.rs lines 220-231). -/
def applySubscriptionUpdate (t : SubMap) : SubscriptionUpdate → SubMap
  | .subscribe st => subMapInsert st.topic_filter st.qos t
  | .unsubscribe unsubscribe_from => subMapRemove unsubscribe_from t

/-- The target subscription set (mqtt/src/client/subscriptions.rs
lines 218-231): the pending updates folded, in order, over a copy of
the acknowledged set. -/
def targetSubscriptionsOf (s : SubsState) : SubMap :=
  s.updatesToSend.foldl applySubscriptionUpdate s.subscriptions

/-- `pending_subscriptions` (mqtt/src/client/subscriptions.rs lines
233-243): target entries whose (topic, qos) differ from the current
acknowledged set, sorted by topic filter. -/
def pendingSubscriptionsOf (s : SubsState) : List SubscribeTo :=
  sortByBool (fun s1 s2 => lexLe s1.topic_filter s2.topic_filter)
    (((targetSubscriptionsOf s).filter
        fun kv => decide (subMapLookup kv.1 s.subscriptions ≠ some kv.2)).map
      fun kv => SubscribeTo.mk kv.1 kv.2)

/-- `pending_unsubscriptions` (mqtt/src/client/subscriptions.rs lines
245-251): acknowledged topics absent from the target set, sorted. -/
def pendingUnsubscriptionsOf (s : SubsState) : List MString :=
  sortByBool lexLe
    ((s.subscriptions.map Prod.fst).filter
      fun tf => !subMapContainsKey tf (targetSubscriptionsOf s))

/-- The SUBSCRIBE dispatch of the send phase
(mqtt/src/client/subscriptions.rs lines 259-282): with a non-empty
pending-subscription group, reserve an identifier; on success record
the batch and emit the packet, on failure push the group's entries
back to the (drained) front of the update queue and save the error.
Returns (packets, updates-to-ack, updates-to-send, allocator,
error). -/
def subsDispatchSubscribe (s : SubsState) (pids : PacketIdentifiers) :
    List Packet × List (Nat × BatchedSubscriptionUpdate) × List SubscriptionUpdate ×
      PacketIdentifiers × Option ClientError :=
  if pendingSubscriptionsOf s = [] then ([], s.updatesToAck, [], pids, none)
  else
    match pids.reserve with
    | .ok (packet_identifier, pids2) =>
      ([Packet.subscribe packet_identifier (pendingSubscriptionsOf s)],
       s.updatesToAck ++
         [(packet_identifier, BatchedSubscriptionUpdate.subscribe (pendingSubscriptionsOf s))],
       [], pids2, none)
    | .error e =>
      ([], s.updatesToAck,
       (pendingSubscriptionsOf s).reverse.map SubscriptionUpdate.subscribe, pids, some e)

/-- The UNSUBSCRIBE dispatch of the send phase
(mqtt/src/client/subscriptions.rs lines 284-308), continuing from the
SUBSCRIBE dispatch's intermediate state.  A failure here overwrites a
saved error from the SUBSCRIBE group, as the source's `err = Some(err_)`
does. -/
def subsDispatchUnsubscribe (s : SubsState)
    (toAck : List (Nat × BatchedSubscriptionUpdate)) (toSend : List SubscriptionUpdate)
    (pids : PacketIdentifiers) (err : Option ClientError) :
    List Packet × List (Nat × BatchedSubscriptionUpdate) × List SubscriptionUpdate ×
      PacketIdentifiers × Option ClientError :=
  if pendingUnsubscriptionsOf s = [] then ([], toAck, toSend, pids, err)
  else
    match pids.reserve with
    | .ok (packet_identifier, pids2) =>
      ([Packet.unsubscribe packet_identifier (pendingUnsubscriptionsOf s)],
       toAck ++
         [(packet_identifier, BatchedSubscriptionUpdate.unsubscribe (pendingUnsubscriptionsOf s))],
       toSend, pids2, err)
    | .error e =>
      ([], toAck,
       (pendingUnsubscriptionsOf s).reverse.map SubscriptionUpdate.unsubscribe ++ toSend,
       pids, some e)

/-- The batching send phase of `subscriptions::State::poll`
(mqtt/src/client/subscriptions.rs lines 203-315): drain the pending
updates into the target set, diff it against the acknowledged set, and
dispatch at most one SUBSCRIBE and one UNSUBSCRIBE.  On a failed
identifier reservation the group's entries are pushed back one by one
to the front of the update queue (hence reversed), and the error is
surfaced only when no packet at all was produced. -/
def subsSendPhase (s : SubsState) (pids : PacketIdentifiers) :
    List Packet × SubsState × PacketIdentifiers × Option ClientError :=
  if s.updatesToSend = [] then ([], s, pids, none)
  else
    let g1 := subsDispatchSubscribe s pids
    let g2 := subsDispatchUnsubscribe s g1.2.1 g1.2.2.1 g1.2.2.2.1 g1.2.2.2.2
    let packets := g1.1 ++ g2.1
    (packets,
     { s with updatesToSend := g2.2.2.1, updatesToAck := g2.2.1 },
     g2.2.2.2.1,
     if packets = [] then g2.2.2.2.2 else none)

/-- `subscriptions::State::poll` (mqtt/src/client/subscriptions.rs
lines 16-318): SUBACK/UNSUBACK handling followed by the batching send
phase.  Early error returns skip the send phase; the
expected-UNSUBACK arm of the SUBACK case pushes the batch back under
the *received* identifier, mirroring source line 122. -/
def SubsState.poll (packet : Option Packet) (s : SubsState)
    (pids : PacketIdentifiers) :
    Option Packet × SubsState × PacketIdentifiers ×
      Except ClientError (List Packet × List SubscriptionUpdate) :=
  match packet with
  | some (.subAck packet_identifier qos) =>
    (match s.updatesToAck with
     | (pidW, .subscribe subscribe_to) :: restAck =>
       if packet_identifier ≠ pidW then
         (none, s, pids, .error (.unexpectedSubAck packet_identifier (.expected pidW)))
       else if subscribe_to.length ≠ qos.length then
         (none, s, pids,
          .error (.subAckDoesNotContainEnoughQoS packet_identifier subscribe_to.length qos.length))
       else
         let pids2 := pids.discard packet_identifier
         let r := subAckLoop subscribe_to qos s.subscriptions
         let s2 := { s with subscriptions := r.1, updatesToAck := restAck }
         (match r.2.2 with
          | some e => (none, s2, pids2, .error e)
          | none =>
            match subsSendPhase s2 pids2 with
            | (packets, s3, pids3, some e) => (none, s3, pids3, .error e)
            | (packets, s3, pids3, none) => (none, s3, pids3, .ok (packets, r.2.1)))
     | (pidW, .unsubscribe unsubscribe_from) :: restAck =>
       (none,
        { s with updatesToAck := (packet_identifier, .unsubscribe unsubscribe_from) :: restAck },
        pids, .error (.unexpectedSubAck packet_identifier (.expectedUnsubAck pidW)))
     | [] => (none, s, pids, .error (.unexpectedSubAck packet_identifier .didNotExpect)))
  | some (.unsubAck packet_identifier) =>
    (match s.updatesToAck with
     | (pidW, .unsubscribe unsubscribe_from) :: restAck =>
       if packet_identifier ≠ pidW then
         (none, s, pids, .error (.unexpectedUnsubAck packet_identifier (.expected pidW)))
       else
         let pids2 := pids.discard packet_identifier
         let s2 := { s with
           subscriptions := unsubscribe_from.foldl (fun m tf => subMapRemove tf m) s.subscriptions,
           updatesToAck := restAck }
         (match subsSendPhase s2 pids2 with
          | (packets, s3, pids3, some e) => (none, s3, pids3, .error e)
          | (packets, s3, pids3, none) =>
            (none, s3, pids3,
             .ok (packets, unsubscribe_from.map SubscriptionUpdate.unsubscribe)))
     | (pidW, .subscribe _) :: _ =>
       (none, s, pids, .error (.unexpectedUnsubAck packet_identifier (.expectedSubAck pidW)))
     | [] => (none, s, pids, .error (.unexpectedUnsubAck packet_identifier .didNotExpect)))
  | other =>
    match subsSendPhase s pids with
    | (packets, s3, pids3, some e) => (other, s3, pids3, .error e)
    | (packets, s3, pids3, none) => (other, s3, pids3, .ok (packets, []))

/-! ## Spec-side descriptions for the SUBACK entry loop (§4.5 of the
spec), to be compared with `subAckLoop` -/

/-- Spec §4.5: the QoS recorded for one (requested, returned) pair:
the actual QoS when granted at or above the request, the requested QoS
on a downgrade or a failure. -/
def subAckSpecRecordedQoS (requested : QoS) : SubAckQos → QoS
  | .success actual => if QoS.le requested actual then actual else requested
  | .failure => requested

/-- Spec §4.5: the acknowledged set after recording every pair in
order. -/
def subAckSpecRecord : List SubscribeTo → List SubAckQos → SubMap → SubMap
  | st :: sts, q :: qs, subs =>
    subAckSpecRecord sts qs (subMapInsert st.topic_filter (subAckSpecRecordedQoS st.qos q) subs)
  | _, _, subs => subs

/-- Spec §4.5: the error of the first pair that was downgraded or
rejected, if any. -/
def subAckSpecFirstError : List SubscribeTo → List SubAckQos → Option ClientError
  | st :: sts, q :: qs =>
    (match q with
     | .success actual =>
       if QoS.le st.qos actual then subAckSpecFirstError sts qs
       else some (.subscriptionDowngraded st.topic_filter st.qos actual)
     | .failure => some .subscriptionRejectedByServer)
  | _, _ => none

/-- Spec §4.5: the `Subscribe` events of the fully-granted pairs, in
order. -/
def subAckSpecEvents : List SubscribeTo → List SubAckQos → List SubscriptionUpdate
  | st :: sts, q :: qs =>
    (match q with
     | .success actual =>
       if QoS.le st.qos actual then
         .subscribe ⟨st.topic_filter, actual⟩ :: subAckSpecEvents sts qs
       else subAckSpecEvents sts qs
     | .failure => subAckSpecEvents sts qs)
  | _, _ => []

/-! ## Statement helpers -/

/-- Whether a subscription update is about topic filter `t`. -/
def updateMentionsB (t : MString) : SubscriptionUpdate → Bool
  | .subscribe st => decide (st.topic_filter = t)
  | .unsubscribe unsubscribe_from => decide (unsubscribe_from = t)

/-- Whether a packet is a SUBSCRIBE or UNSUBSCRIBE mentioning topic
filter `t`. -/
def packetMentionsB (t : MString) : Packet → Bool
  | .subscribe _ subscribe_to => subscribe_to.any fun st => decide (st.topic_filter = t)
  | .unsubscribe _ unsubscribe_from => unsubscribe_from.any fun u => decide (u = t)
  | _ => false

/-- The packets of a poll result: the produced list on success, nothing
on an error return. -/
def pollPacketsOf (r : Except ClientError (List Packet × List SubscriptionUpdate)) :
    List Packet :=
  match r with
  | .ok x => x.1
  | .error _ => []

/-! ## Twin desired-properties machine
(azure-iot-mqtt/src/twin_state/desired.rs) -/

/-- Modelled from the spec: `TwinProperties{properties, version}`
(spec §4.7 and §6); the declaring module `twin_state/mod.rs` is not
among the provided sources, only its consumer `desired.rs` is.  The
`properties` JSON document is opaque here and kept as raw bytes. -/
structure TwinProperties where
  properties : List Nat
  version : Nat
  deriving DecidableEq, Repr

/-- Modelled from the spec: IoT Hub status codes (spec §6,
`200 Ok | 204 NoContent | 400 BadRequest | 429 TooManyRequests |
5xx Error | other Other`). -/
inductive IotHubStatus where
  | ok
  | noContent
  | badRequest
  | tooManyRequests
  | error (code : Nat)
  | other (code : Nat)
  deriving DecidableEq, Repr

/-- Modelled from the spec: `InternalTwinStateMessage`, the routed
twin messages consumed by `desired::State::poll` — a GET `Response`
with status, request id, JSON payload and optional version, or a
desired-properties `TwinPatch` (spec §4.7); the declaring module is
not among the provided sources. -/
inductive InternalTwinStateMessage where
  | response (status : IotHubStatus) (request_id : Nat) (payload : List Nat)
      (version : Option Nat)
  | twinPatch (twin_properties : TwinProperties)
  deriving DecidableEq, Repr

/-- `desired::Inner` (azure-iot-mqtt/src/twin_state/desired.rs lines
13-28), with timer payloads dropped. -/
inductive DesiredInner where
  | beginBackOff
  | endBackOff
  | sendRequest
  | waitingForResponse (request_id : Nat)
  | haveResponse (version : Nat)
  deriving DecidableEq, Repr

/-- Outcome of one `HaveResponse` loop iteration of
`desired::State::poll`: a surfaced `Message::Patch`, a `continue` into
`SendRequest` (which refetches the full twin), or `NotReady`. -/
inductive DesiredPollOutcome where
  | patchMessage (twin_properties : TwinProperties)
  | continueToSendRequest
  | notReady
  deriving DecidableEq, Repr

/-- The `HaveResponse { version }` arm of `desired::State::poll`
(azure-iot-mqtt/src/twin_state/desired.rs lines 167-186): a
`TwinPatch` message is consumed; when its version is not exactly
`version + 1` the machine falls back to `SendRequest` (refetch), when
it is, the stored version is advanced and the patch is surfaced.  Any
other message is put back and the poll is not ready. -/
def desiredHaveResponsePoll (version : Nat)
    (message : Option InternalTwinStateMessage) :
    DesiredInner × Option InternalTwinStateMessage × DesiredPollOutcome :=
  match message with
  | some (.twinPatch twin_properties) =>
    if twin_properties.version ≠ version + 1 then
      (.sendRequest, none, .continueToSendRequest)
    else
      (.haveResponse twin_properties.version, none, .patchMessage twin_properties)
  | other => (.haveResponse version, other, .notReady)

/-! ## Statement constants for the codec claims -/

/-- A decodable PUBLISH whose body is exactly `0x0020_0000` bytes:
QoS 0, empty topic, `0x001F_FFFE` payload bytes. -/
def c2FailingBytes : List Nat :=
  0x30 :: 0x80 :: 0x80 :: 0x80 :: 0x01 :: 0x00 :: 0x00 :: List.replicate 0x001FFFFE 0

/-- The packet `c2FailingBytes` decodes to. -/
def c2FailingPacket : Packet :=
  .publish .atMostOnce false [] (List.replicate 0x001FFFFE 0)

/-- An allocator state in which only identifier 2 is reserved and the
cursor sits at 1 (reachable by reserving identifiers 1 and 2, then
receiving the ack for 1 after the cursor wrapped back past it; any
state of this shape is covered by the claim, which quantifies over all
allocator states). -/
def c1FailingState : PacketIdentifiers := ⟨2 ^ 2, 1⟩

/-! # Lemmas -/

/-- Unfolding `rlEncodeLoop` on a value with spare encoded-byte room:
when `item` fits in the bytes left before the `dst.len() == 4` check
can fire, the loop succeeds and appends the canonical encoding. -/
theorem rlEncodeLoop_ok (original : Nat) :
    ∀ (item : Nat) (dst : List Nat), item < 128 ^ (4 - dst.length) →
      rlEncodeLoop original item dst = .ok (dst ++ rlBytes item) := by
  intro item
  induction item using Nat.strong_induction_on with
  | _ item ih =>
    intro dst hlt
    rw [rlEncodeLoop.eq_def, rlBytes.eq_def]
    by_cases h0 : item / 128 = 0
    · simp [h0]
    · have h128 : 128 ≤ item := by
        by_contra hc
        exact h0 (Nat.div_eq_of_lt (by omega))
      have hroom : dst.length + 2 ≤ 4 := by
        by_contra hc
        have hple : 128 ^ (4 - dst.length) ≤ 128 ^ 1 :=
          Nat.pow_le_pow_right (by omega) (by omega)
        simp at hple
        omega
      have hlen : ¬(dst ++ [item % 128 + 0x80]).length = 4 := by
        simp
        omega
      have hdiv : item / 128 < item := Nat.div_lt_self (by omega) (by omega)
      have hbound : item / 128 < 128 ^ (4 - (dst ++ [item % 128 + 0x80]).length) := by
        simp only [List.length_append, List.length_cons, List.length_nil, Nat.zero_add]
        rw [Nat.div_lt_iff_lt_mul (by omega)]
        calc item < 128 ^ (4 - dst.length) := hlt
          _ = 128 ^ (4 - (dst.length + 1)) * 128 := by
              rw [← Nat.pow_succ]
              congr 1
              omega
      rw [if_neg h0, if_neg hlen, ih (item / 128) hdiv _ hbound]
      simp [h0]

/-- Unfolding `rlEncodeLoop` on a value too large for the room left in
the buffer: when at most three buffer slots remain before the
`dst.len() == 4` check and `item` needs more encoded bytes than that,
the loop fails with `RemainingLengthTooHigh original`. -/
theorem rlEncodeLoop_error (original : Nat) :
    ∀ (item : Nat) (dst : List Nat), dst.length ≤ 3 →
      128 ^ (4 - dst.length) ≤ item →
      rlEncodeLoop original item dst = .error (.remainingLengthTooHigh original) := by
  intro item
  induction item using Nat.strong_induction_on with
  | _ item ih =>
    intro dst hd hge
    have hpow1 : (128 : Nat) ^ 1 ≤ 128 ^ (4 - dst.length) :=
      Nat.pow_le_pow_right (by omega) (by omega)
    simp at hpow1
    have h0 : ¬item / 128 = 0 := by
      intro h
      have := (Nat.div_eq_zero_iff (by omega : 0 < 128)).mp h
      omega
    rw [rlEncodeLoop.eq_def, if_neg h0]
    by_cases hlen : (dst ++ [item % 128 + 0x80]).length = 4
    · rw [if_pos hlen]
    · rw [if_neg hlen]
      have hd2 : (dst ++ [item % 128 + 0x80]).length ≤ 3 := by
        simp at hlen ⊢
        omega
      have hge2 : 128 ^ (4 - (dst ++ [item % 128 + 0x80]).length) ≤ item / 128 := by
        rw [Nat.le_div_iff_mul_le (by omega)]
        calc 128 ^ (4 - (dst ++ [item % 128 + 0x80]).length) * 128
            = 128 ^ (4 - (dst ++ [item % 128 + 0x80]).length + 1) := by
              rw [Nat.pow_succ]
          _ ≤ 128 ^ (4 - dst.length) := by
              apply Nat.pow_le_pow_right (by omega)
              simp
              omega
          _ ≤ item := hge
      exact ih (item / 128) (Nat.div_lt_self (by omega) (by omega)) _ hd2 hge2

/-- The canonical encoding of a value below `128 ^ k` is at most `k`
bytes long (`1 ≤ k`). -/
theorem rlBytes_length_le : ∀ (item k : Nat), 1 ≤ k → item < 128 ^ k →
    (rlBytes item).length ≤ k := by
  intro item
  induction item using Nat.strong_induction_on with
  | _ item ih =>
    intro k hk hlt
    rw [rlBytes.eq_def]
    by_cases h0 : item / 128 = 0
    · simp [h0]
      omega
    · have h128 : 128 ≤ item := by
        by_contra hc
        exact h0 (Nat.div_eq_of_lt (by omega))
      have hk2 : 2 ≤ k := by
        by_contra hc
        have : k = 1 := by omega
        subst this
        simp at hlt
        omega
      have hbound : item / 128 < 128 ^ (k - 1) := by
        rw [Nat.div_lt_iff_lt_mul (by omega)]
        calc item < 128 ^ k := hlt
          _ = 128 ^ (k - 1) * 128 := by
              rw [← Nat.pow_succ]
              congr 1
              omega
      have := ih (item / 128) (Nat.div_lt_self (by omega) (by omega)) (k - 1) (by omega) hbound
      simp [h0]
      omega

/-- Decoding the canonical encoding from any intermediate decoder
state recovers the value, shifted into place above the bits already
read, and leaves the trailing bytes unconsumed. -/
theorem rlDecodeLoop_rlBytes :
    ∀ (item result num_bytes_read : Nat) (rest : List Nat),
      item < 128 ^ (4 - num_bytes_read) → num_bytes_read ≤ 3 →
      rlDecodeLoop result num_bytes_read (rlBytes item ++ rest) =
        .ok (some (result + item * 128 ^ num_bytes_read, rest)) := by
  intro item
  induction item using Nat.strong_induction_on with
  | _ item ih =>
    intro result num_bytes_read rest hlt hn
    rw [rlBytes.eq_def]
    by_cases h0 : item / 128 = 0
    · have hsmall : item < 128 := by
        by_contra hc
        have : 1 ≤ item / 128 := Nat.one_le_div_iff (by omega) |>.mpr (by omega)
        omega
      simp only [h0, if_pos rfl, List.cons_append, List.nil_append]
      simp only [rlDecodeLoop]
      simp [Nat.mod_eq_of_lt hsmall, h0]
    · have h128 : 128 ≤ item := by
        by_contra hc
        exact h0 (Nat.div_eq_of_lt (by omega))
      have hroom : num_bytes_read + 2 ≤ 4 := by
        by_contra hc
        have hple : 128 ^ (4 - num_bytes_read) ≤ 128 ^ 1 :=
          Nat.pow_le_pow_right (by omega) (by omega)
        simp at hple
        omega
      simp only [h0, if_neg h0, List.cons_append]
      simp only [rlDecodeLoop]
      have h1 : item % 128 < 128 := Nat.mod_lt _ (by omega)
      have hb : (item % 128 + 0x80) / 128 % 2 = 1 := by
        have h2 : (item % 128 + 0x80) / 128 = 1 := by omega
        rw [h2]
      have hn4 : ¬num_bytes_read + 1 = 4 := by omega
      rw [if_neg (by simp [hb]), if_neg hn4]
      have hbound : item / 128 < 128 ^ (4 - (num_bytes_read + 1)) := by
        rw [Nat.div_lt_iff_lt_mul (by omega)]
        calc item < 128 ^ (4 - num_bytes_read) := hlt
          _ = 128 ^ (4 - (num_bytes_read + 1)) * 128 := by
              rw [← Nat.pow_succ]
              congr 1
              omega
      have hmod : (item % 128 + 0x80) % 128 = item % 128 := by omega
      simp only [List.append_eq]
      rw [hmod, ih (item / 128) (Nat.div_lt_self (by omega) (by omega)) _ _ rest hbound (by omega)]
      congr 2
      have hsplit : item % 128 + 128 * (item / 128) = item := Nat.mod_add_div item 128
      rw [Nat.pow_succ]
      conv_rhs => rw [← hsplit]
      ring

/-- Helper for C2: the four-byte remaining length of the failing
PUBLISH decodes to `0x0020_0000`. -/
theorem c2_rl_decode :
    remainingLengthDecode
        (0x80 :: 0x80 :: 0x80 :: 0x01 :: 0x00 :: 0x00 :: List.replicate 0x001FFFFE 0) =
      .ok (some (0x00200000, 0x00 :: 0x00 :: List.replicate 0x001FFFFE 0)) := by
  have hb : rlBytes 0x00200000 = [0x80, 0x80, 0x80, 0x01] := by
    simp [rlBytes]
  have h := rlDecodeLoop_rlBytes 0x00200000 0 0
    (0x00 :: 0x00 :: List.replicate 0x001FFFFE 0) (by norm_num) (by norm_num)
  rw [hb] at h
  rw [remainingLengthDecode]
  rw [show ((0x80 :: 0x80 :: 0x80 :: 0x01 :: 0x00 :: 0x00 ::
      List.replicate 0x001FFFFE 0 : List Nat)) =
    [0x80, 0x80, 0x80, 0x01] ++ (0x00 :: 0x00 :: List.replicate 0x001FFFFE 0) from rfl]
  rw [h]
  norm_num

/-- Helper for C2: a QoS-0 PUBLISH body with an empty topic parses to
the packet with the rest of the body as payload. -/
theorem c2_parse_body (payload : List Nat) :
    parsePacketBody 0x30 (0x00 :: 0x00 :: payload) =
      .ok (.publish .atMostOnce false [] payload) := by
  simp only [parsePacketBody]
  norm_num
  simp only [readString, utf8StringDecode, List.take_zero, List.drop_zero]
  rfl

/-- Helper for C2: a QoS-0 PUBLISH with empty topic whose body reaches
`0x0020_0000` bytes fails to encode, because `encode_packet` has
already appended the packet-type byte when `RemainingLengthCodec::encode`
runs its `dst.len() == 4` check. -/
theorem c2_encode_qos0 (payload : List Nat)
    (hlen : ([0x00, 0x00] ++ payload).length = 0x00200000) :
    PacketCodec.encode (.publish .atMostOnce false [] payload) [] =
      .error (.remainingLengthTooHigh 0x00200000) := by
  rw [PacketCodec.encode]
  have hbody : utf8StringEncode [] [] = .ok [0x00, 0x00] := by
    simp [utf8StringEncode]
  simp only [encodePacket, hbody, bind, Except.bind]
  rw [hlen]
  rw [remainingLengthEncode, rlEncodeLoop_error 0x00200000 0x00200000 _ (by simp) (by simp)]

/-! # Claims -/

/-- C1.  The spec: `reserve()` scans forward from `previous+1` for the
next free identifier and fails with `PacketIdentifiersExhausted` only
when all 65535 identifiers are in use.  The code checks only the single
identifier `previous+1` and fails immediately when that one bit is set:
in `c1FailingState` exactly one identifier (2) is reserved and the
cursor sits at 1, yet `reserve` returns `PacketIdentifiersExhausted`
although identifier 3 (among 65533 others) is free. -/
theorem c1_reserve_ignores_free_identifiers :
    c1FailingState.reserve = .error .packetIdentifiersExhausted ∧
    c1FailingState.inUse.testBit 3 = false ∧ 1 ≤ 3 ∧ 3 ≤ 65535 := by
  decide

/-- C2.  The spec's round-trip law: every packet produced by a
successful `PacketCodec::decode` re-encodes successfully and decodes
back to itself with all bytes consumed (the repository's fuzz harness
asserts exactly this, `codec.encode(packet.clone(), ..).unwrap()`
included).  The code violates it: `c2FailingBytes` — a legal QoS-0
PUBLISH with remaining length `0x0020_0000` — decodes to
`c2FailingPacket`, but re-encoding that packet fails with
`RemainingLengthTooHigh`, because `RemainingLengthCodec::encode`'s
`dst.len() == 4` guard counts the already-written packet-type byte and
so rejects every body needing a four-byte remaining length
(≥ `0x0020_0000`). -/
theorem c2_decoded_packet_fails_to_reencode :
    PacketCodec.decode c2FailingBytes = .ok (some (c2FailingPacket, [])) ∧
    PacketCodec.encode c2FailingPacket [] =
      .error (.remainingLengthTooHigh 0x00200000) := by
  constructor
  · unfold c2FailingBytes c2FailingPacket
    simp only [PacketCodec.decode, c2_rl_decode]
    have hlen : (0x00 :: 0x00 :: List.replicate 0x001FFFFE (0 : Nat)).length = 0x00200000 := by
      rw [List.length_cons, List.length_cons, List.length_replicate]
    rw [if_neg (by rw [hlen]; omega)]
    rw [List.take_all_of_le (by rw [hlen]), List.drop_eq_nil_of_le (by rw [hlen])]
    rw [c2_parse_body]
  · exact c2_encode_qos0 _ (by rw [List.length_append, List.length_replicate]; rfl)

/-- C6 counterexample.  The claim quantifies over *every* destination
buffer; with a single byte already in the buffer, the encoder rejects
`0x0020_0000` — a value well within the claimed `≤ 0x0FFF_FFFF`
success range — because its `dst.len() == 4` check fires on the total
buffer length. -/
theorem c6_counterexample :
    0x00200000 ≤ 0x0FFFFFFF ∧
    remainingLengthEncode 0x00200000 [0x00] =
      .error (.remainingLengthTooHigh 0x00200000) := by
  refine ⟨by norm_num, ?_⟩
  rw [remainingLengthEncode, rlEncodeLoop_error 0x00200000 0x00200000 _ (by simp) (by simp)]

/-- C6 amended.  Into an *empty* destination buffer,
`RemainingLengthCodec::encode` succeeds — appending the
continuation-bit encoding, at most 4 bytes, which decodes back to the
value — exactly when the value is at most `0x0FFF_FFFF`, and fails
with `RemainingLengthTooHigh` on every larger value; in particular
`0x0FFF_FFFF` encodes to `FF FF FF 7F` and `0x1000_0000` fails. -/
theorem c6_remaining_length_encode_empty_buffer :
    ∀ v : Nat,
      (v ≤ 0x0FFFFFFF →
        remainingLengthEncode v [] = .ok (rlBytes v) ∧
        (rlBytes v).length ≤ 4 ∧
        remainingLengthDecode (rlBytes v) = .ok (some (v, []))) ∧
      (0x0FFFFFFF < v →
        remainingLengthEncode v [] = .error (.remainingLengthTooHigh v)) ∧
      remainingLengthEncode 0x0FFFFFFF [] = .ok [0xFF, 0xFF, 0xFF, 0x7F] ∧
      remainingLengthEncode 0x10000000 [] =
        .error (.remainingLengthTooHigh 0x10000000) := by
  have hok : ∀ v : Nat, v ≤ 0x0FFFFFFF → remainingLengthEncode v [] = .ok (rlBytes v) := by
    intro v hv
    rw [remainingLengthEncode, rlEncodeLoop_ok v v [] (by simpa using by omega)]
    simp
  have herr : ∀ v : Nat, 0x0FFFFFFF < v →
      remainingLengthEncode v [] = .error (.remainingLengthTooHigh v) := by
    intro v hv
    rw [remainingLengthEncode, rlEncodeLoop_error v v [] (by simp) (by simpa using by omega)]
  intro v
  refine ⟨fun hv => ⟨hok v hv, ?_, ?_⟩, herr v, ?_, herr 0x10000000 (by norm_num)⟩
  · exact rlBytes_length_le v 4 (by omega) (by omega)
  · have := rlDecodeLoop_rlBytes v 0 0 [] (by simpa using by omega) (by omega)
    simpa [remainingLengthDecode] using this
  · rw [hok 0x0FFFFFFF (by norm_num)]
    congr 1
    simp [rlBytes]

/-- C6 witness: the amended theorem applied at `v = 0x80` (success
side) and `v = 0x1000_0000` (failure side). -/
theorem c6_witness :
    (remainingLengthEncode 0x80 [] = .ok (rlBytes 0x80) ∧
      (rlBytes 0x80).length ≤ 4 ∧
      remainingLengthDecode (rlBytes 0x80) = .ok (some (0x80, []))) ∧
    remainingLengthEncode 0x10000000 [] =
      .error (.remainingLengthTooHigh 0x10000000) :=
  ⟨(c6_remaining_length_encode_empty_buffer 0x80).1 (by norm_num),
   (c6_remaining_length_encode_empty_buffer 0x10000000).2.1 (by norm_num)⟩

/-- `BTreeMap` lookup after inserting a key finds the inserted
value. -/
theorem pidMapLookup_insert_self (k : Nat) (v : α) :
    ∀ m : PidMap α, pidMapLookup k (pidMapInsert k v m) = some v := by
  intro m
  induction m with
  | nil => simp [pidMapInsert, pidMapLookup]
  | cons kv rest ih =>
    by_cases h1 : k < kv.1
    · simp [pidMapInsert, h1, pidMapLookup]
    · by_cases h2 : k = kv.1
      · simp [pidMapInsert, h1, h2, pidMapLookup]
      · simp [pidMapInsert, h1, h2, pidMapLookup, ih]

/-- The inserted binding is a member of the map. -/
theorem mem_pidMapInsert_self (k : Nat) (v : α) :
    ∀ m : PidMap α, (k, v) ∈ pidMapInsert k v m := by
  intro m
  induction m with
  | nil => simp [pidMapInsert]
  | cons kv rest ih =>
    by_cases h1 : k < kv.1
    · simp [pidMapInsert, h1]
    · by_cases h2 : k = kv.1
      · simp [pidMapInsert, h1, h2]
      · simp [pidMapInsert, h1, h2]
        right
        exact ih

/-- C3.  Inbound `PUBLISH(ExactlyOnce, id, dup)` in the publish
machine (with no queued outbound requests): with no entry under `id`
in `waiting_to_be_released`, the publication is stored there and a
PUBREC(id) is queued; with an existing entry and `dup = true`, a
PUBREC(id) is queued again and the state is untouched; with an
existing entry and `dup = false`, poll fails with
`DuplicateExactlyOncePublishPacketNotMarkedDuplicate(id)`.  In every
case the surfaced publication is `none` — it is surfaced only by the
later PUBREL. -/
theorem c3_exactly_once_inbound_publish :
    ∀ (s : PublishState) (pids : PacketIdentifiers) (pid : Nat) (dup retain : Bool)
      (topic : MString) (payload : List Nat),
    s.publishRequestsWaitingToBeSent = [] →
    (pidMapLookup pid s.waitingToBeReleased = none →
      PublishState.poll (some (.publish (.exactlyOnce pid dup) retain topic payload)) s pids =
        (none,
         { s with waitingToBeReleased :=
                    (pidMapInsert pid ⟨topic, dup, .exactlyOnce, retain, payload⟩
                      s.waitingToBeReleased) },
         pids, .ok ([.pubRec pid], none))) ∧
    (∀ p, pidMapLookup pid s.waitingToBeReleased = some p → dup = true →
      PublishState.poll (some (.publish (.exactlyOnce pid dup) retain topic payload)) s pids =
        (none, s, pids, .ok ([.pubRec pid], none))) ∧
    (∀ p, pidMapLookup pid s.waitingToBeReleased = some p → dup = false →
      PublishState.poll (some (.publish (.exactlyOnce pid dup) retain topic payload)) s pids =
        (none, s, pids,
         .error (.duplicateExactlyOncePublishPacketNotMarkedDuplicate pid))) := by
  intro s pids pid dup retain topic payload hreq
  obtain ⟨reqs, acked, rel, comp⟩ := s
  simp only at hreq
  subst hreq
  refine ⟨?_, ?_, ?_⟩
  · intro hnone
    simp only at hnone
    simp [PublishState.poll, publishHandleInbound, hnone, publishProcessRequests]
  · intro p hsome hdup
    simp only at hsome
    subst hdup
    simp [PublishState.poll, publishHandleInbound, hsome, publishProcessRequests]
  · intro p hsome hdup
    simp only at hsome
    subst hdup
    simp [PublishState.poll, publishHandleInbound, hsome, publishProcessRequests]

/-- C3 witness: the theorem applied to the empty session state and an
inbound `PUBLISH(ExactlyOnce, 5, dup = false)`. -/
theorem c3_witness :
    PublishState.poll (some (.publish (.exactlyOnce 5 false) false [97] [1]))
        ⟨[], [], [], []⟩ ⟨0, 65535⟩ =
      (none, ⟨[], [], [(5, ⟨[97], false, .exactlyOnce, false, [1]⟩)], []⟩, ⟨0, 65535⟩,
       .ok ([.pubRec 5], none)) := by
  have h := (c3_exactly_once_inbound_publish ⟨[], [], [], []⟩ ⟨0, 65535⟩ 5 false false
    [97] [1] rfl).1 rfl
  simpa using h

/-- C5 counterexample.  The claim: every `waiting_to_be_completed`
entry holds a PUBREL-equivalent packet, so that after PUBREC(5) the
packet stored under 5 is `PubRel 5` and reconnect replay puts PUBRELs
on the wire.  In the code the PUBREC handler moves the *original
PUBLISH packet* from `waiting_to_be_acked` into
`waiting_to_be_completed`, and replay emits that PUBLISH. -/
theorem c5_counterexample :
    (PublishState.poll (some (.pubRec 5))
        ⟨[], [(5, (7, .publish (.exactlyOnce 5 true) false [97] [1]))], [], []⟩
        ⟨0x20, 65535⟩ =
      (none, ⟨[], [], [], [(5, (7, .publish (.exactlyOnce 5 true) false [97] [1]))]⟩,
       ⟨0x20, 65535⟩, .ok ([.pubRel 5], none))) ∧
    pidMapLookup 5 [(5, ((7 : Nat), Packet.publish (.exactlyOnce 5 true) false [97] [1]))] =
      some (7, .publish (.exactlyOnce 5 true) false [97] [1]) ∧
    Packet.publish (.exactlyOnce 5 true) false [97] [1] ≠ .pubRel 5 ∧
    (PublishState.newConnection false
        ⟨[], [], [], [(5, (7, .publish (.exactlyOnce 5 true) false [97] [1]))]⟩
        ⟨0x20, 65535⟩).1 =
      [.publish (.exactlyOnce 5 true) false [97] [1]] := by
  decide

/-- C5 amended.  `waiting_to_be_completed` entries hold the original
(DUP-marked) PUBLISH packet with its ack notifier: after PUBREC(id)
for an id present in `waiting_to_be_acked`, the entry formerly under
`id` there — the stored PUBLISH — sits unchanged under `id` in
`waiting_to_be_completed`, a PUBREL(id) is queued, and reconnect
replay of `waiting_to_be_completed` puts that stored packet on the
wire. -/
theorem c5_completed_holds_original_publish :
    ∀ (s : PublishState) (pids : PacketIdentifiers) (id a : Nat) (pkt : Packet),
    s.publishRequestsWaitingToBeSent = [] →
    pidMapLookup id s.waitingToBeAcked = some (a, pkt) →
    (PublishState.poll (some (.pubRec id)) s pids =
       (none,
        { s with waitingToBeAcked := pidMapRemove id s.waitingToBeAcked,
                 waitingToBeCompleted := pidMapInsert id (a, pkt) s.waitingToBeCompleted },
        pids, .ok ([.pubRel id], none))) ∧
    pidMapLookup id (pidMapInsert id (a, pkt) s.waitingToBeCompleted) = some (a, pkt) ∧
    pkt ∈ (PublishState.newConnection false
        { s with waitingToBeAcked := pidMapRemove id s.waitingToBeAcked,
                 waitingToBeCompleted := pidMapInsert id (a, pkt) s.waitingToBeCompleted }
        pids).1 := by
  intro s pids id a pkt hreq hsome
  obtain ⟨reqs, acked, rel, comp⟩ := s
  simp only at hreq hsome
  subst hreq
  refine ⟨?_, pidMapLookup_insert_self id (a, pkt) comp, ?_⟩
  · simp [PublishState.poll, publishHandleInbound, hsome, publishProcessRequests]
  · simp [PublishState.newConnection, pidMapValues, pidMapKeys]
    right
    right
    exact ⟨id, a, mem_pidMapInsert_self id (a, pkt) comp⟩

/-- C5 witness: the amended theorem at a one-entry
`waiting_to_be_acked`. -/
theorem c5_witness :
    (PublishState.poll (some (.pubRec 5))
        ⟨[], [(5, (7, .publish (.exactlyOnce 5 true) false [97] [1]))], [], []⟩
        ⟨0x20, 65535⟩ =
      (none,
       { (⟨[], [(5, (7, .publish (.exactlyOnce 5 true) false [97] [1]))], [], []⟩ :
           PublishState) with
         waitingToBeAcked :=
           pidMapRemove 5 [(5, ((7 : Nat), Packet.publish (.exactlyOnce 5 true) false [97] [1]))],
         waitingToBeCompleted :=
           pidMapInsert 5 ((7 : Nat), Packet.publish (.exactlyOnce 5 true) false [97] [1]) [] },
       ⟨0x20, 65535⟩, .ok ([.pubRel 5], none))) ∧
    pidMapLookup 5
        (pidMapInsert 5 ((7 : Nat), Packet.publish (.exactlyOnce 5 true) false [97] [1]) []) =
      some (7, .publish (.exactlyOnce 5 true) false [97] [1]) ∧
    Packet.publish (.exactlyOnce 5 true) false [97] [1] ∈
      (PublishState.newConnection false
        { (⟨[], [(5, (7, .publish (.exactlyOnce 5 true) false [97] [1]))], [], []⟩ :
            PublishState) with
          waitingToBeAcked :=
            pidMapRemove 5 [(5, ((7 : Nat), Packet.publish (.exactlyOnce 5 true) false [97] [1]))],
          waitingToBeCompleted :=
            pidMapInsert 5 ((7 : Nat), Packet.publish (.exactlyOnce 5 true) false [97] [1]) [] }
        ⟨0x20, 65535⟩).1 :=
  c5_completed_holds_original_publish
    ⟨[], [(5, (7, .publish (.exactlyOnce 5 true) false [97] [1]))], [], []⟩
    ⟨0x20, 65535⟩ 5 7 (.publish (.exactlyOnce 5 true) false [97] [1]) rfl rfl

/-- C10.  An ack for an untracked identifier is never an error (with
no queued outbound requests): an untracked PUBACK or PUBCOMP changes
nothing and queues nothing; an untracked PUBREC still queues
PUBREL(id); an untracked PUBREL still queues PUBCOMP(id) and surfaces
no publication; all four return `Ok` with the three collections and
the allocator unchanged. -/
theorem c10_untracked_acks_are_ignored :
    ∀ (s : PublishState) (pids : PacketIdentifiers) (pid : Nat),
    s.publishRequestsWaitingToBeSent = [] →
    (pidMapLookup pid s.waitingToBeAcked = none →
      PublishState.poll (some (.pubAck pid)) s pids = (none, s, pids, .ok ([], none))) ∧
    (pidMapLookup pid s.waitingToBeCompleted = none →
      PublishState.poll (some (.pubComp pid)) s pids = (none, s, pids, .ok ([], none))) ∧
    (pidMapLookup pid s.waitingToBeAcked = none →
      PublishState.poll (some (.pubRec pid)) s pids =
        (none, s, pids, .ok ([.pubRel pid], none))) ∧
    (pidMapLookup pid s.waitingToBeReleased = none →
      PublishState.poll (some (.pubRel pid)) s pids =
        (none, s, pids, .ok ([.pubComp pid], none))) := by
  intro s pids pid hreq
  obtain ⟨reqs, acked, rel, comp⟩ := s
  simp only at hreq
  subst hreq
  refine ⟨?_, ?_, ?_, ?_⟩ <;> intro hnone <;> simp only at hnone <;>
    simp [PublishState.poll, publishHandleInbound, hnone, publishProcessRequests]

/-- C10 witness: the theorem at the empty session state, identifier
9. -/
theorem c10_witness :
    (PublishState.poll (some (.pubAck 9)) ⟨[], [], [], []⟩ ⟨0, 65535⟩ =
      (none, ⟨[], [], [], []⟩, ⟨0, 65535⟩, .ok ([], none))) ∧
    (PublishState.poll (some (.pubComp 9)) ⟨[], [], [], []⟩ ⟨0, 65535⟩ =
      (none, ⟨[], [], [], []⟩, ⟨0, 65535⟩, .ok ([], none))) ∧
    (PublishState.poll (some (.pubRec 9)) ⟨[], [], [], []⟩ ⟨0, 65535⟩ =
      (none, ⟨[], [], [], []⟩, ⟨0, 65535⟩, .ok ([.pubRel 9], none))) ∧
    (PublishState.poll (some (.pubRel 9)) ⟨[], [], [], []⟩ ⟨0, 65535⟩ =
      (none, ⟨[], [], [], []⟩, ⟨0, 65535⟩, .ok ([.pubComp 9], none))) :=
  ⟨(c10_untracked_acks_are_ignored ⟨[], [], [], []⟩ ⟨0, 65535⟩ 9 rfl).1 rfl,
   (c10_untracked_acks_are_ignored ⟨[], [], [], []⟩ ⟨0, 65535⟩ 9 rfl).2.1 rfl,
   (c10_untracked_acks_are_ignored ⟨[], [], [], []⟩ ⟨0, 65535⟩ 9 rfl).2.2.1 rfl,
   (c10_untracked_acks_are_ignored ⟨[], [], [], []⟩ ⟨0, 65535⟩ 9 rfl).2.2.2 rfl⟩

/-- C4 counterexample.  The claim groups `ServerGenerated` with
`IdWithCleanSession` and says both are rewritten to
`IdWithExistingSession(id)` on an accepted CONNACK; for a stored
`ServerGenerated` the code sets `reset_session = true` but leaves the
client id as `ServerGenerated` — not an `IdWithExistingSession`
value. -/
theorem c4_counterexample :
    connAckAccepted .serverGenerated true = (true, .serverGenerated) ∧
    (connAckAccepted .serverGenerated true).2.isIdWithExistingSession = false := by
  decide

/-- C4 amended.  On `ConnAck { Accepted, session_present }` while
waiting for CONNACK: a stored `IdWithCleanSession(id)` sets
`reset_session = true` and is rewritten to
`IdWithExistingSession(id)`; a stored `ServerGenerated` sets
`reset_session = true` and is kept as `ServerGenerated`; a stored
`IdWithExistingSession(id)` keeps its id and sets
`reset_session = !session_present`.  The framed state becomes
`Connected { new_connection = true, reset_session }`. -/
theorem c4_connack_accepted_client_id :
    ∀ (session_present : Bool) (id : MString),
      connAckAccepted .serverGenerated session_present = (true, .serverGenerated) ∧
      connAckAccepted (.idWithCleanSession id) session_present =
        (true, .idWithExistingSession id) ∧
      connAckAccepted (.idWithExistingSession id) session_present =
        (!session_present, .idWithExistingSession id) ∧
      connectHandleConnAckAccepted (.idWithCleanSession id) session_present =
        (.idWithExistingSession id, .connected true true) ∧
      connectHandleConnAckAccepted (.idWithExistingSession id) session_present =
        (.idWithExistingSession id, .connected true !session_present) :=
  fun _ _ => ⟨rfl, rfl, rfl, rfl, rfl⟩

/-- C8.  In twin state `HaveResponse { version }`, a `TwinPatch`
carrying `version + 1` advances the stored version and surfaces the
patch; any other patch version sends the machine back to
`SendRequest` (full-twin refetch) and surfaces nothing. -/
theorem c8_have_response_patch_version :
    ∀ (version : Nat) (tp : TwinProperties),
      (tp.version = version + 1 →
        desiredHaveResponsePoll version (some (.twinPatch tp)) =
          (.haveResponse tp.version, none, .patchMessage tp)) ∧
      (tp.version ≠ version + 1 →
        desiredHaveResponsePoll version (some (.twinPatch tp)) =
          (.sendRequest, none, .continueToSendRequest)) := by
  intro version tp
  constructor
  · intro h
    simp [desiredHaveResponsePoll, h]
  · intro h
    simp [desiredHaveResponsePoll, h]

/-- C8 witness: the theorem at stored version 5 with patch versions 6
(one ahead: surfaced) and 7 (a gap: refetch). -/
theorem c8_witness :
    desiredHaveResponsePoll 5 (some (.twinPatch ⟨[], 6⟩)) =
      (.haveResponse 6, none, .patchMessage ⟨[], 6⟩) ∧
    desiredHaveResponsePoll 5 (some (.twinPatch ⟨[], 7⟩)) =
      (.sendRequest, none, .continueToSendRequest) :=
  ⟨(c8_have_response_patch_version 5 ⟨[], 6⟩).1 rfl,
   (c8_have_response_patch_version 5 ⟨[], 7⟩).2 (by decide)⟩

/-- Looking up the key just inserted into the acknowledged set. -/
theorem subMapLookup_insert_self (k : MString) (v : QoS) :
    ∀ m : SubMap, subMapLookup k (subMapInsert k v m) = some v := by
  intro m
  induction m with
  | nil => simp [subMapInsert, subMapLookup]
  | cons kv rest ih =>
    by_cases h : k = kv.1
    · simp [subMapInsert, h, subMapLookup]
    · simp [subMapInsert, h, subMapLookup, ih]

/-- Inserting under a different key leaves a lookup unchanged. -/
theorem subMapLookup_insert_other {k k2 : MString} (h : k ≠ k2) (v : QoS) :
    ∀ m : SubMap, subMapLookup k (subMapInsert k2 v m) = subMapLookup k m := by
  intro m
  induction m with
  | nil => simp [subMapInsert, subMapLookup, h]
  | cons kv rest ih =>
    by_cases h2 : k2 = kv.1
    · subst h2
      simp [subMapInsert, subMapLookup, h]
    · simp [subMapInsert, h2, subMapLookup, ih]

/-- The SUBACK entry loop agrees with the spec-side recording, event
and first-error functions. -/
theorem subAckLoop_spec :
    ∀ (sts : List SubscribeTo) (qs : List SubAckQos) (subs : SubMap),
      subAckLoop sts qs subs =
        (subAckSpecRecord sts qs subs, subAckSpecEvents sts qs, subAckSpecFirstError sts qs) := by
  intro sts
  induction sts with
  | nil =>
    intro qs subs
    cases qs <;> simp [subAckLoop, subAckSpecRecord, subAckSpecEvents, subAckSpecFirstError]
  | cons st sts ih =>
    intro qs subs
    cases qs with
    | nil => simp [subAckLoop, subAckSpecRecord, subAckSpecEvents, subAckSpecFirstError]
    | cons q qs =>
      cases q with
      | success actual =>
        by_cases hle : QoS.le st.qos actual
        · simp [subAckLoop, subAckSpecRecord, subAckSpecEvents, subAckSpecFirstError,
            subAckSpecRecordedQoS, hle, ih]
        · simp [subAckLoop, subAckSpecRecord, subAckSpecEvents, subAckSpecFirstError,
            subAckSpecRecordedQoS, hle, ih]
      | failure =>
        simp [subAckLoop, subAckSpecRecord, subAckSpecEvents, subAckSpecFirstError,
          subAckSpecRecordedQoS, ih]

/-- Recording a batch that never mentions `t` leaves `t`'s lookup
unchanged. -/
theorem subAckSpecRecord_lookup_of_not_mem {t : MString} :
    ∀ (sts : List SubscribeTo) (qs : List SubAckQos) (m : SubMap),
      (∀ st ∈ sts, st.topic_filter ≠ t) →
      subMapLookup t (subAckSpecRecord sts qs m) = subMapLookup t m := by
  intro sts
  induction sts with
  | nil => intro qs m _; cases qs <;> simp [subAckSpecRecord]
  | cons st sts ih =>
    intro qs m hmem
    cases qs with
    | nil => simp [subAckSpecRecord]
    | cons q qs =>
      have hne : t ≠ st.topic_filter := fun h => hmem st (by simp) h.symm
      simp only [subAckSpecRecord]
      rw [ih qs _ (fun x hx => hmem x (by simp [hx]))]
      exact subMapLookup_insert_other hne _ m

/-- With pairwise-distinct topic filters, the recorded set maps the
`i`-th filter to exactly the spec-recorded QoS of the `i`-th pair. -/
theorem subAckSpecRecord_get :
    ∀ (sts : List SubscribeTo) (qs : List SubAckQos) (m : SubMap),
      (sts.map SubscribeTo.topic_filter).Nodup →
      ∀ i (h : i < sts.length) (hq : i < qs.length),
        subMapLookup (sts.get ⟨i, h⟩).topic_filter (subAckSpecRecord sts qs m) =
          some (subAckSpecRecordedQoS (sts.get ⟨i, h⟩).qos (qs.get ⟨i, hq⟩)) := by
  intro sts
  induction sts with
  | nil => intro qs m _ i h; simp at h
  | cons st sts ih =>
    intro qs m hnd i h hq
    cases qs with
    | nil => simp at hq
    | cons q qs =>
      simp only [List.map_cons, List.nodup_cons] at hnd
      match i with
      | 0 =>
        simp only [List.get, subAckSpecRecord]
        rw [subAckSpecRecord_lookup_of_not_mem sts qs _ ?hne]
        · exact subMapLookup_insert_self _ _ m
        · intro x hx hcontra
          exact hnd.1 (hcontra ▸ List.mem_map_of_mem SubscribeTo.topic_filter hx)
      | i + 1 =>
        simp only [List.get, subAckSpecRecord]
        exact ih qs _ hnd.2 i (by simpa using h) (by simpa using hq)

/-- C7 counterexample.  The claim reads the SUBACK loop per pair: a
rejected pair makes poll return `SubscriptionRejectedByServer` *and* a
fully-granted pair still emits its `Subscribe` event.  In the code a
single error return carries no events at all: with the first pair
rejected and the second fully granted, poll returns the rejection
error, while the per-pair reading demands the second pair's
`Subscribe([98], AtLeastOnce)` event be emitted. -/
theorem c7_counterexample :
    (SubsState.poll (some (.subAck 1 [.failure, .success .atLeastOnce]))
        ⟨[], [], [(1, .subscribe [⟨[97], .atLeastOnce⟩, ⟨[98], .atLeastOnce⟩])]⟩
        ⟨2 ^ 1, 1⟩).2.2.2 = .error .subscriptionRejectedByServer ∧
    subAckSpecEvents [⟨[97], .atLeastOnce⟩, ⟨[98], .atLeastOnce⟩]
        [.failure, .success .atLeastOnce] = [.subscribe ⟨[98], .atLeastOnce⟩] := by
  decide

/-- C7 amended.  When a SUBACK matching the head Subscribe batch (same
identifier, equally many return codes) is processed with no further
queued updates, the acknowledged set becomes the per-pair recording of
the spec — actual QoS for a pair granted at or above its request,
requested QoS on a downgrade or a failure, as `subAckSpecRecord`
captures and the per-index lookups state —, the identifier is
discarded, and poll returns the *first* offending pair's error
(`SubscriptionDowngraded` or `SubscriptionRejectedByServer`) if any
pair was downgraded or rejected, else `Ok` carrying the `Subscribe`
events of exactly the fully-granted pairs in order; events are
surfaced only in that error-free case. -/
theorem c7_suback_first_error_and_recordings :
    ∀ (s : SubsState) (pids : PacketIdentifiers) (pid : Nat)
      (sts : List SubscribeTo) (qs : List SubAckQos)
      (restAck : List (Nat × BatchedSubscriptionUpdate)),
    s.updatesToAck = (pid, .subscribe sts) :: restAck →
    sts.length = qs.length →
    s.updatesToSend = [] →
    (SubsState.poll (some (.subAck pid qs)) s pids =
       (none,
        { s with subscriptions := subAckSpecRecord sts qs s.subscriptions,
                 updatesToAck := restAck },
        pids.discard pid,
        match subAckSpecFirstError sts qs with
        | some e => .error e
        | none => .ok ([], subAckSpecEvents sts qs))) ∧
    ((sts.map SubscribeTo.topic_filter).Nodup →
      ∀ i (h : i < sts.length) (hq : i < qs.length),
        subMapLookup (sts.get ⟨i, h⟩).topic_filter
            (subAckSpecRecord sts qs s.subscriptions) =
          some (subAckSpecRecordedQoS (sts.get ⟨i, h⟩).qos (qs.get ⟨i, hq⟩))) := by
  intro s pids pid sts qs restAck hack hlen hsend
  obtain ⟨subs, toSend, toAck⟩ := s
  simp only at hack hsend
  subst hack
  subst hsend
  refine ⟨?_, fun hnd i h hq => subAckSpecRecord_get sts qs subs hnd i h hq⟩
  simp only [SubsState.poll]
  rw [if_neg (by simp), if_neg (fun hc => hc hlen)]
  rw [subAckLoop_spec]
  cases herr : subAckSpecFirstError sts qs with
  | some e => simp [herr]
  | none => simp [herr, subsSendPhase]

/-- C7 witness: the amended theorem at a one-entry batch granted at
the requested QoS. -/
theorem c7_witness :
    SubsState.poll (some (.subAck 3 [.success .atLeastOnce]))
        ⟨[], [], [(3, .subscribe [⟨[97], .atLeastOnce⟩])]⟩ ⟨2 ^ 3, 3⟩ =
      (none,
       ⟨subAckSpecRecord [⟨[97], .atLeastOnce⟩] [.success .atLeastOnce] [], [], []⟩,
       PacketIdentifiers.discard ⟨2 ^ 3, 3⟩ 3,
       .ok ([], subAckSpecEvents [⟨[97], .atLeastOnce⟩] [.success .atLeastOnce])) ∧
    subMapLookup [97]
        (subAckSpecRecord [⟨[97], .atLeastOnce⟩] [.success .atLeastOnce] []) =
      some (subAckSpecRecordedQoS .atLeastOnce (.success .atLeastOnce)) := by
  have h := c7_suback_first_error_and_recordings
    ⟨[], [], [(3, .subscribe [⟨[97], .atLeastOnce⟩])]⟩ ⟨2 ^ 3, 3⟩ 3
    [⟨[97], .atLeastOnce⟩] [.success .atLeastOnce] [] rfl rfl rfl
  exact ⟨h.1, h.2 (by decide) 0 (by decide) (by decide)⟩

/-- Removing a key from the acknowledged set makes its lookup `none`. -/
theorem subMapLookup_remove_self (k : MString) :
    ∀ m : SubMap, subMapLookup k (subMapRemove k m) = none := by
  intro m
  induction m with
  | nil => rfl
  | cons kv rest ih =>
    obtain ⟨k2, v⟩ := kv
    by_cases h : k2 = k
    · have he : subMapRemove k ((k2, v) :: rest) = subMapRemove k rest := by
        rw [subMapRemove, subMapRemove, List.filter_cons, if_neg (by simp [h])]
      rw [he, ih]
    · have he : subMapRemove k ((k2, v) :: rest) = (k2, v) :: subMapRemove k rest := by
        rw [subMapRemove, subMapRemove, List.filter_cons, if_pos (by simp [h])]
      rw [he]
      simp only [subMapLookup]
      rw [if_neg (fun hc => h hc.symm), ih]

/-- Removing a different key leaves a lookup unchanged. -/
theorem subMapLookup_remove_other {k k2 : MString} (h : k ≠ k2) :
    ∀ m : SubMap, subMapLookup k (subMapRemove k2 m) = subMapLookup k m := by
  intro m
  induction m with
  | nil => rfl
  | cons kv rest ih =>
    obtain ⟨k3, v⟩ := kv
    by_cases h2 : k3 = k2
    · have he : subMapRemove k2 ((k3, v) :: rest) = subMapRemove k2 rest := by
        rw [subMapRemove, subMapRemove, List.filter_cons, if_neg (by simp [h2])]
      rw [he, ih]
      simp only [subMapLookup]
      rw [if_neg (fun hc => h (hc.trans h2))]
    · have he : subMapRemove k2 ((k3, v) :: rest) = (k3, v) :: subMapRemove k2 rest := by
        rw [subMapRemove, subMapRemove, List.filter_cons, if_pos (by simp [h2])]
      rw [he]
      simp only [subMapLookup]
      by_cases h3 : k = k3
      · rw [if_pos h3, if_pos h3]
      · rw [if_neg h3, if_neg h3, ih]

/-- Folding updates that never mention `t` over the target set leaves
`t`'s lookup unchanged. -/
theorem subMapLookup_foldl_no_mention {t : MString} :
    ∀ (l : List SubscriptionUpdate) (m : SubMap),
      (∀ u ∈ l, updateMentionsB t u = false) →
      subMapLookup t (l.foldl applySubscriptionUpdate m) = subMapLookup t m := by
  intro l
  induction l with
  | nil => intro m _; simp
  | cons u rest ih =>
    intro m hm
    have hu := hm u (by simp)
    rw [List.foldl_cons, ih _ (fun x hx => hm x (by simp [hx]))]
    cases u with
    | subscribe st =>
      simp only [updateMentionsB, decide_eq_false_iff_not] at hu
      simp only [applySubscriptionUpdate]
      exact subMapLookup_insert_other (fun hc => hu hc.symm) _ m
    | unsubscribe tf =>
      simp only [updateMentionsB, decide_eq_false_iff_not] at hu
      simp only [applySubscriptionUpdate]
      exact subMapLookup_remove_other (fun hc => hu hc.symm) m

/-- A member's key always looks up to something. -/
theorem subMapLookup_isSome_of_mem :
    ∀ (m : SubMap) (kv : MString × QoS), kv ∈ m → (subMapLookup kv.1 m).isSome := by
  intro m
  induction m with
  | nil => simp
  | cons kv2 rest ih =>
    intro kv hkv
    by_cases h : kv.1 = kv2.1
    · simp [subMapLookup, h]
    · rcases List.mem_cons.mp hkv with h2 | h2
      · exact absurd (congrArg Prod.fst h2) h
      · simp [subMapLookup, h, ih kv h2]

/-- Membership in an ordered insertion. -/
theorem mem_insertOrdered (le : α → α → Bool) (x a : α) :
    ∀ l : List α, a ∈ insertOrdered le x l ↔ a = x ∨ a ∈ l := by
  intro l
  induction l with
  | nil => simp [insertOrdered]
  | cons y ys ih =>
    by_cases h : le x y
    · simp [insertOrdered, h]
    · simp [insertOrdered, h, ih]
      tauto

/-- Sorting preserves membership. -/
theorem mem_sortByBool (le : α → α → Bool) (a : α) :
    ∀ l : List α, a ∈ sortByBool le l ↔ a ∈ l := by
  intro l
  induction l with
  | nil => simp [sortByBool]
  | cons x xs ih =>
    simp only [sortByBool, List.foldr_cons] at ih ⊢
    rw [mem_insertOrdered, ih, List.mem_cons]

/-- Every pending subscription's topic filter is present in the target
set. -/
theorem pendingSubscriptionsOf_topic_mem (s : SubsState) (st : SubscribeTo) :
    st ∈ pendingSubscriptionsOf s →
    (subMapLookup st.topic_filter (targetSubscriptionsOf s)).isSome := by
  intro hst
  rw [pendingSubscriptionsOf, mem_sortByBool] at hst
  rcases List.mem_map.mp hst with ⟨kv, hkv, hmk⟩
  have hkv2 := List.mem_of_mem_filter hkv
  have : kv.1 = st.topic_filter := by rw [← hmk]
  rw [← this]
  exact subMapLookup_isSome_of_mem _ kv hkv2

/-- Every pending unsubscription is present in the acknowledged set. -/
theorem pendingUnsubscriptionsOf_mem (s : SubsState) (tf : MString) :
    tf ∈ pendingUnsubscriptionsOf s →
    (subMapLookup tf s.subscriptions).isSome := by
  intro htf
  rw [pendingUnsubscriptionsOf, mem_sortByBool] at htf
  have h2 := List.mem_of_mem_filter htf
  rcases List.mem_map.mp h2 with ⟨kv, hkv, hfst⟩
  rw [← hfst]
  exact subMapLookup_isSome_of_mem _ kv hkv

/-- Every packet of the SUBSCRIBE dispatch is a SUBSCRIBE carrying the
pending-subscription group. -/
theorem subsDispatchSubscribe_packets (s : SubsState) (pids : PacketIdentifiers) :
    ∀ p ∈ (subsDispatchSubscribe s pids).1,
      ∃ pid, p = Packet.subscribe pid (pendingSubscriptionsOf s) := by
  intro p hp
  rw [subsDispatchSubscribe] at hp
  by_cases h1 : pendingSubscriptionsOf s = []
  · simp [h1] at hp
  · rw [if_neg h1] at hp
    cases hr : pids.reserve with
    | ok v =>
      rw [hr] at hp
      simp at hp
      exact ⟨v.1, hp⟩
    | error e =>
      rw [hr] at hp
      simp at hp

/-- Every packet of the UNSUBSCRIBE dispatch is an UNSUBSCRIBE
carrying the pending-unsubscription group. -/
theorem subsDispatchUnsubscribe_packets (s : SubsState)
    (toAck : List (Nat × BatchedSubscriptionUpdate)) (toSend : List SubscriptionUpdate)
    (pids : PacketIdentifiers) (err : Option ClientError) :
    ∀ p ∈ (subsDispatchUnsubscribe s toAck toSend pids err).1,
      ∃ pid, p = Packet.unsubscribe pid (pendingUnsubscriptionsOf s) := by
  intro p hp
  rw [subsDispatchUnsubscribe] at hp
  by_cases h1 : pendingUnsubscriptionsOf s = []
  · simp [h1] at hp
  · rw [if_neg h1] at hp
    cases hr : pids.reserve with
    | ok v =>
      rw [hr] at hp
      simp at hp
      exact ⟨v.1, hp⟩
    | error e =>
      rw [hr] at hp
      simp at hp

/-- Every packet of the send phase is a SUBSCRIBE of the pending
subscriptions or an UNSUBSCRIBE of the pending unsubscriptions. -/
theorem subsSendPhase_packets (s : SubsState) (pids : PacketIdentifiers) :
    ∀ p ∈ (subsSendPhase s pids).1,
      (∃ pid, p = Packet.subscribe pid (pendingSubscriptionsOf s)) ∨
      (∃ pid, p = Packet.unsubscribe pid (pendingUnsubscriptionsOf s)) := by
  intro p hp
  by_cases hempty : s.updatesToSend = []
  · simp [subsSendPhase, hempty] at hp
  · simp only [subsSendPhase, if_neg hempty] at hp
    rcases List.mem_append.mp hp with h | h
    · exact Or.inl (subsDispatchSubscribe_packets s pids p h)
    · exact Or.inr (subsDispatchUnsubscribe_packets s _ _ _ _ p h)

/-- C9.  With `Subscribe(t, q)` followed by `Unsubscribe(t)` in the
pending update FIFO (in any positions, with no other update mentioning
`t`) and `t` not in the acknowledged set, the next poll produces no
SUBSCRIBE and no UNSUBSCRIBE packet mentioning `t`: the two updates
cancel in the target set, so `t` is in neither pending group. -/
theorem c9_subscribe_then_unsubscribe_produces_no_packets :
    ∀ (s : SubsState) (pids : PacketIdentifiers) (t : MString) (q : QoS)
      (l1 l2 l3 : List SubscriptionUpdate),
    s.updatesToSend = l1 ++ .subscribe ⟨t, q⟩ :: (l2 ++ .unsubscribe t :: l3) →
    ((l1 ++ l2 ++ l3).all fun u => !updateMentionsB t u) = true →
    subMapLookup t s.subscriptions = none →
    ((pollPacketsOf (SubsState.poll none s pids).2.2.2).all
      fun p => !packetMentionsB t p) = true := by
  intro s pids t q l1 l2 l3 hsend hall hsubs
  have hm : ∀ u ∈ l1 ++ l2 ++ l3, updateMentionsB t u = false := by
    intro u hu
    have := List.all_eq_true.mp hall u hu
    simpa using this
  have htarget : subMapLookup t (targetSubscriptionsOf s) = none := by
    rw [targetSubscriptionsOf, hsend]
    rw [List.foldl_append, List.foldl_cons, List.foldl_append, List.foldl_cons]
    rw [subMapLookup_foldl_no_mention l3 _
      (fun u hu => hm u (by simp [hu]))]
    simp only [applySubscriptionUpdate]
    exact subMapLookup_remove_self t _
  rw [List.all_eq_true]
  intro p hp
  have hpk : p ∈ (subsSendPhase s pids).1 := by
    simp only [SubsState.poll] at hp
    rcases hsp : subsSendPhase s pids with ⟨packets, s3, pids3, errOpt⟩
    rw [hsp] at hp
    cases errOpt with
    | some e => simp [pollPacketsOf] at hp
    | none =>
      simp only [pollPacketsOf] at hp
      exact hp
  rcases subsSendPhase_packets s pids p hpk with ⟨pid, rfl⟩ | ⟨pid, rfl⟩
  · simp only [packetMentionsB, Bool.not_eq_true']
    rw [List.any_eq_false]
    intro st hst
    simp only [decide_eq_true_eq]
    intro hceq
    have hsome := pendingSubscriptionsOf_topic_mem s st hst
    rw [hceq, htarget] at hsome
    simp at hsome
  · simp only [packetMentionsB, Bool.not_eq_true']
    rw [List.any_eq_false]
    intro tf htf
    simp only [decide_eq_true_eq]
    intro hceq
    have hsome := pendingUnsubscriptionsOf_mem s tf htf
    rw [hceq, hsubs] at hsome
    simp at hsome

/-- C9 witness: the theorem at a queue holding exactly
`Subscribe("t", AtLeastOnce)` then `Unsubscribe("t")` over an empty
acknowledged set. -/
theorem c9_witness :
    ((pollPacketsOf (SubsState.poll none
        ⟨[], [.subscribe ⟨[116], .atLeastOnce⟩, .unsubscribe [116]], []⟩ ⟨0, 0⟩).2.2.2).all
      fun p => !packetMentionsB [116] p) = true :=
  c9_subscribe_then_unsubscribe_produces_no_packets
    ⟨[], [.subscribe ⟨[116], .atLeastOnce⟩, .unsubscribe [116]], []⟩ ⟨0, 0⟩
    [116] .atLeastOnce [] [] [] rfl (by decide) rfl

end Ota
